import Mathlib

/-!
Verification development for the tasker wrapped-services repository.

The definitions below are a shallow embedding of the durable stack-run
scheduler (src/services/simple-stack-processor/index.ts) and of the task
sandbox executor (src/unnamed/part_004).  The durable store (Supabase) is
modeled as an in-memory record of the three tables `stack_runs`,
`task_runs` and `task_locks`; every database operation of the source is
translated to the corresponding pure list transformation.  Outbound HTTP
calls (the service dispatch and the resume call to the executor) are
external effects: their observable responses are passed in as parameters.
Statuses are kept as the string literals of the source.  Times are natural
numbers (milliseconds, like Date.now()); ISO-8601 timestamp comparison in
the source is order-isomorphic to numeric comparison.
-/

namespace Tasker

/-- JSON-like values exchanged with the durable store and the wrapped
services.  This mirrors the untyped payloads of the TypeScript source. -/
inductive Val where
  | null
  | bool (b : Bool)
  | num (n : Int)
  | str (s : String)
  | arr (xs : List Val)
  | obj (fields : List (String × Val))

/-- JavaScript truthiness of a JSON value: null, false, 0 and "" are falsy;
arrays and objects (empty ones included) are truthy. -/
def Val.truthy : Val → Bool
  | .null => false
  | .bool b => b
  | .num n => n != 0
  | .str s => s != ""
  | .arr _ => true
  | .obj _ => true

/-- Property access `v.f`: defined on objects, `none` (undefined) otherwise. -/
def Val.getField : Val → String → Option Val
  | .obj fields, k => fields.lookup k
  | _, _ => none

/-- Truthiness of a possibly missing field, the JS pattern `if (v.f)`. -/
def truthyField (v : Val) (f : String) : Bool :=
  match v.getField f with
  | some x => x.truthy
  | none => false

/-- The JS pattern `v?.f || v`: the field when truthy, else `v` itself. -/
def fieldOrSelf (v : Val) (f : String) : Val :=
  match v.getField f with
  | some x => if x.truthy then x else v
  | none => v

/-- Strict comparison `v.f === true`. -/
def isTrueField (v : Val) (f : String) : Bool :=
  match v.getField f with
  | some (.bool true) => true
  | _ => false

/-- Strict comparison `v.f === s` for a string literal `s`. -/
def isStrField (v : Val) (f s : String) : Bool :=
  match v.getField f with
  | some (.str t) => t == s
  | _ => false

/-- Numeric JSON value as a row id.  Ids in the store are non-negative. -/
def Val.asNat : Val → Option Nat
  | .num n => if 0 ≤ n then some n.toNat else none
  | _ => none

/-- Approximation of JS template-string rendering of a value.  Only the
exact text of error messages depends on it, never control flow. -/
def jsString : Val → String
  | .str s => s
  | .num n => toString n
  | .bool b => toString b
  | .null => "null"
  | .arr _ => "[array]"
  | .obj _ => "[object Object]"

/-- A row of the `stack_runs` table (fields of the source schema that the
core reads or writes).  `none` models SQL NULL / JS undefined. -/
structure StackRun where
  id : Nat
  parent_task_run_id : Option Nat := none
  parent_stack_run_id : Option Nat := none
  service_name : String := ""
  method_name : String := ""
  args : List Val := []
  status : String := "pending"
  created_at : Nat := 0
  updated_at : Nat := 0
  ended_at : Option Nat := none
  result : Option Val := none
  error : Option String := none
  resume_payload : Option Val := none
  waiting_on_stack_run_id : Option Nat := none
  vm_state : Option Val := none

/-- A row of the `task_runs` table (the fields the scheduler touches). -/
structure TaskRun where
  id : Nat
  status : String := "queued"
  result : Option Val := none
  ended_at : Option Nat := none

/-- A row of the `task_locks` table; `task_run_id` is the primary key. -/
structure TaskLock where
  task_run_id : Nat
  locked_at : Nat := 0
  deriving DecidableEq

/-- The durable store. -/
structure DB where
  stack_runs : List StackRun := []
  task_runs : List TaskRun := []
  task_locks : List TaskLock := []

/-- Select a stack run by id (`.eq('id', id).single()`). -/
def DB.getStackRun (db : DB) (id : Nat) : Option StackRun :=
  db.stack_runs.find? (fun r => r.id == id)

/-- Update the stack runs matching an id (`.update(...).eq('id', id)`). -/
def DB.mapStackRun (db : DB) (id : Nat) (f : StackRun → StackRun) : DB :=
  { db with stack_runs := db.stack_runs.map (fun r => if r.id == id then f r else r) }

/-- Select a task run by id. -/
def DB.getTaskRun (db : DB) (id : Nat) : Option TaskRun :=
  db.task_runs.find? (fun t => t.id == id)

/-- Update the task runs matching an id. -/
def DB.mapTaskRun (db : DB) (id : Nat) (f : TaskRun → TaskRun) : DB :=
  { db with task_runs := db.task_runs.map (fun t => if t.id == id then f t else t) }

/-- Status of a stack run, as observed through a primary-key select. -/
def statusOf (db : DB) (id : Nat) : Option String :=
  (db.getStackRun id).map (fun r => r.status)

/-- Status of a task run. -/
def taskStatusOf (db : DB) (id : Nat) : Option String :=
  (db.getTaskRun id).map (fun t => t.status)

/-- JS truthiness of a nullable row id: null/undefined and 0 are falsy. -/
def truthyId : Option Nat → Bool
  | none => false
  | some n => n != 0

/-- tryLockTaskChain (index.ts lines 35-73).  The insert into `task_locks`
fails on the primary-key constraint when a row for the chain exists, and
fails outright when the key is NULL.  Retrying against an otherwise
unchanged store cannot change the outcome, so the bounded retry loop
collapses to one conditional insert. -/
def tryLockTaskChain (db : DB) (taskRunId : Option Nat) (now : Nat) : DB × Bool :=
  match taskRunId with
  | none => (db, false)
  | some t =>
    if db.task_locks.any (fun l => l.task_run_id == t) then (db, false)
    else ({ db with task_locks := db.task_locks ++ [{ task_run_id := t, locked_at := now }] }, true)

/-- unlockTaskChain (index.ts lines 76-92): delete the lock rows of the
chain.  A NULL key matches no row. -/
def unlockTaskChain (db : DB) (taskRunId : Option Nat) : DB :=
  match taskRunId with
  | none => db
  | some t => { db with task_locks := db.task_locks.filter (fun l => l.task_run_id != t) }

/-- The synthetic error written by the sweeper to stuck processing runs. -/
def timeoutErrorMsg : String := "Processing timeout - marked as failed by auto-recovery"

/-- cleanupStaleLocks (index.ts lines 123-158): delete `task_locks` rows
with `locked_at` strictly older than a hard-coded five minutes, and set to
"failed" (with a synthetic timeout error) every stack run stuck in
"processing" whose `updated_at` is strictly older than a hard-coded two
minutes.  The stale-run update writes only `status` and `error`. -/
def cleanupStaleLocks (now : Nat) (db : DB) : DB :=
  let fiveMinutesAgo := now - 5 * 60 * 1000
  let db1 := { db with task_locks := db.task_locks.filter (fun l => decide (fiveMinutesAgo ≤ l.locked_at)) }
  let twoMinutesAgo := now - 2 * 60 * 1000
  { db1 with stack_runs := db1.stack_runs.map (fun r =>
      if r.status == "processing" && decide (r.updated_at < twoMinutesAgo) then
        { r with status := "failed", error := some timeoutErrorMsg }
      else r) }

/-- Modelled from the spec: section 4.7 requires the sweeper thresholds
T_lock_stale and T_step_stale to be configurable (defaults five and two
minutes); the source exposes no configuration surface for them.  This
definition follows the words of the spec, taking the two thresholds as
parameters, for comparison with `cleanupStaleLocks`. -/
def sweepSpec (tLockStale tStepStale : Nat) (now : Nat) (db : DB) : DB :=
  let lockCutoff := now - tLockStale
  let db1 := { db with task_locks := db.task_locks.filter (fun l => decide (lockCutoff ≤ l.locked_at)) }
  let stepCutoff := now - tStepStale
  { db1 with stack_runs := db1.stack_runs.map (fun r =>
      if r.status == "processing" && decide (r.updated_at < stepCutoff) then
        { r with status := "failed", error := some timeoutErrorMsg }
      else r) }

/-- isTaskChainBusy (index.ts lines 164-185): does any stack run of the
chain have status "processing"?  The SQL `eq` comparison against a NULL
chain id matches no rows. -/
def isTaskChainBusy (db : DB) (taskRunId : Option Nat) : Bool :=
  match taskRunId with
  | none => false
  | some t => db.stack_runs.any (fun r => r.parent_task_run_id == some t && r.status == "processing")

/-- updateStackRunStatus (index.ts lines 201-220).  `result?` mirrors the
optional JS argument: `none` means the argument was omitted (undefined,
leaving the column untouched) and `some x` means the value `x` (including
`some none`, an explicit null, which clears the column).  `err?` likewise;
the source only ever passes strings there.  Terminal statuses also set
`ended_at`. -/
def applyStatusUpdate (status : String) (result? : Option (Option Val))
    (err? : Option String) (now : Nat) (r : StackRun) : StackRun :=
  let r1 := { r with status := status, updated_at := now }
  let r2 := match result? with
    | some v => { r1 with result := v }
    | none => r1
  let r3 := match err? with
    | some e => { r2 with error := some e }
    | none => r2
  if status == "completed" || status == "failed" then { r3 with ended_at := some now } else r3

def updateStackRunStatus (db : DB) (id : Nat) (status : String)
    (result? : Option (Option Val)) (err? : Option String) (now : Nat) : DB :=
  db.mapStackRun id (applyStatusUpdate status result? err? now)

/-- Observable response of the outbound service dispatch call made by
processServiceCall: either a transport-level failure (`!response.ok`) with
the HTTP status, or the parsed JSON body. -/
inductive ServiceResponse where
  | httpFail (status : Nat)
  | parsed (v : Val)

/-- Classified outcome of processServiceCall: a value, a thrown
SUSPENDED_WAITING_FOR_CHILD error (carrying the child id parsed from the
suspension payload, when numeric), or any other thrown error message. -/
inductive CallOutcome where
  | success (result : Val)
  | suspendedChild (childId : Option Nat)
  | thrown (msg : String)

/-- The waiting_on_stack_run_id write of the suspension branches (index.ts
lines 338-351 and 364-378): an update with a missing (undefined) child id
is stripped by the client, leaving the column untouched. -/
def setWaitingOn (childId : Option Nat) (now : Nat) (r : StackRun) : StackRun :=
  match childId with
  | some c => { r with waiting_on_stack_run_id := some c, updated_at := now }
  | none => { r with updated_at := now }

/-- processServiceCall (index.ts lines 223-390).  The three request-building
branches (deno-executor, tasks, wrapped service) only shape the outbound
HTTP request, which is external; they differ observably in the message of
the transport-failure error.  After parsing: a truthy `error` field throws;
`result = response.data || response`; a `__hostCallSuspended === true`
marker (looked for on `result.result || result`) or a FlowState
`status === "paused"` with truthy `suspensionData` marks the current run
`suspended_waiting_child`, records `waiting_on_stack_run_id` from the
payload, and throws the suspension error; otherwise the value is
returned. -/
def processServiceCall (db : DB) (run : StackRun) (resp : ServiceResponse) (now : Nat) :
    DB × CallOutcome :=
  match resp with
  | .httpFail status =>
    if run.service_name == "deno-executor" && run.method_name == "execute" then
      (db, .thrown ("Deno-executor call failed: " ++ toString status))
    else if run.service_name == "tasks" && run.method_name == "execute" then
      (db, .thrown ("Tasks call failed: " ++ toString status))
    else
      (db, .thrown (run.service_name ++ " call failed: " ++ toString status))
  | .parsed v =>
    if truthyField v "error" then
      (db, .thrown ("Service call failed: " ++ jsString (fieldOrSelf v "error")))
    else
      let result := fieldOrSelf v "data"
      let suspensionData := fieldOrSelf result "result"
      if suspensionData.truthy && isTrueField suspensionData "__hostCallSuspended" then
        let childId := (suspensionData.getField "stackRunId").bind Val.asNat
        let db1 := updateStackRunStatus db run.id "suspended_waiting_child" none none now
        let db2 := db1.mapStackRun run.id (setWaitingOn childId now)
        (db2, .suspendedChild childId)
      else if result.truthy && isStrField result "status" "paused" && truthyField result "suspensionData" then
        let sd := fieldOrSelf result "suspensionData"
        let childId := (sd.getField "stackRunId").bind Val.asNat
        let db1 := updateStackRunStatus db run.id "suspended_waiting_child" none none now
        let db2 := db1.mapStackRun run.id (setWaitingOn childId now)
        (db2, .suspendedChild childId)
      else
        (db, .success result)

/-- Observable response of the resume HTTP call to the deno-executor made
by resumeParentTask: transport failure, or the parsed JSON body. -/
inductive ResumeHttp where
  | httpFail (status : Nat)
  | parsed (v : Val)

/-- The result-shaping step of resumeParentTask (index.ts lines 432-447):
for the two known wrappedgapi list methods, a raw array reply is wrapped
into the object shape the task code expects. -/
def formatResult (run : StackRun) (result : Val) : Val :=
  if run.service_name == "wrappedgapi" then
    if run.method_name == "admin.domains.list" then
      match result with
      | .arr xs => .obj [("domains", .arr xs)]
      | _ => result
    else if run.method_name == "admin.users.list" then
      match result with
      | .arr xs => .obj [("users", .arr xs)]
      | _ => result
    else result
  else result

/-- Result of resumeParentTask: the updated store and whether the guard
conditions held so that a resume was actually issued. -/
structure ResumeResult where
  db : DB
  attempted : Bool

/-- The resume_payload write of resumeParentTask (index.ts lines 453-459). -/
def setResumePayload (v : Val) (now : Nat) (p : StackRun) : StackRun :=
  { p with resume_payload := some v, updated_at := now }

/-- resumeParentTask (index.ts lines 393-523).  Guards: the completed child
must have a (truthy) `parent_stack_run_id`; the parent row must exist, be
`suspended_waiting_child` and be waiting on exactly this child; otherwise
nothing is changed.  When the guards hold: the parent is set to
`pending_resume`, the (shaped) child result is stored in `resume_payload`,
and the resume HTTP call is made.  A transport failure or an `error`
field in the reply is thrown and caught by the enclosing catch, which sets
the parent to `failed` with a "Resume failed: ..." message.  Otherwise the
reply is interpreted: `data.status === "completed"` completes the parent
with `data.result`; `data.status === "error"` fails it with `data.error`;
the paused / suspended / unrecognized cases leave the parent row as it is
(the trigger fired in the paused case is external and fire-and-forget). -/
def resumeParentTask (db : DB) (stackRun : StackRun) (result : Val)
    (resumeHttp : ResumeHttp) (now : Nat) : ResumeResult :=
  if !truthyId stackRun.parent_stack_run_id then ⟨db, false⟩
  else
    let parentId := stackRun.parent_stack_run_id.getD 0
    match db.getStackRun parentId with
    | none => ⟨db, false⟩
    | some parent =>
      if parent.status != "suspended_waiting_child" then ⟨db, false⟩
      else if parent.waiting_on_stack_run_id != some stackRun.id then ⟨db, false⟩
      else
        let formattedResult := formatResult stackRun result
        let db1 := updateStackRunStatus db parentId "pending_resume" none none now
        let db2 := db1.mapStackRun parentId (setResumePayload formattedResult now)
        match resumeHttp with
        | .httpFail status =>
          ⟨updateStackRunStatus db2 parentId "failed" (some none)
            (some ("Resume failed: Failed to resume parent: " ++ toString status)) now, true⟩
        | .parsed rr =>
          if truthyField rr "error" then
            ⟨updateStackRunStatus db2 parentId "failed" (some none)
              (some ("Resume failed: Failed to resume parent: " ++ jsString (fieldOrSelf rr "error"))) now, true⟩
          else
            let data := fieldOrSelf rr "data"
            if truthyField rr "data" && isStrField data "status" "completed" then
              ⟨updateStackRunStatus db2 parentId "completed"
                ((data.getField "result").map some) none now, true⟩
            else if truthyField rr "data" && isStrField data "status" "error" then
              ⟨updateStackRunStatus db2 parentId "failed" (some none)
                ((data.getField "error").map jsString) now, true⟩
            else
              ⟨db2, true⟩

/-- Instrumented result of processStackRunInternal: the final store, the
boolean return value of the source function, and the values of its local
variables `lockAcquired` and `bypassedLock` (plus `started`, true when the
candidate passed the lock gate and execution began). -/
structure ProcResult where
  db : DB
  ret : Bool
  started : Bool
  lockAcquired : Bool
  bypassedLock : Bool

/-- The child-bypass condition canProcess of processStackRunInternal
(index.ts lines 553-585): a candidate with a truthy `parent_stack_run_id`
whose parent row is found may run without the chain lock iff the parent is
`suspended_waiting_child` waiting exactly on it, or the parent is
`completed`, or the parent is waiting (truthy id) on a different child. -/
def canBypass (db : DB) (run : StackRun) : Bool :=
  if truthyId run.parent_stack_run_id then
    match db.getStackRun (run.parent_stack_run_id.getD 0) with
    | some parent =>
      (parent.status == "suspended_waiting_child" && parent.waiting_on_stack_run_id == some run.id)
      || parent.status == "completed"
      || (truthyId parent.waiting_on_stack_run_id && parent.waiting_on_stack_run_id != some run.id)
    | none => false
  else false

/-- The finally block of processStackRunInternal (index.ts lines 643-659):
when the lock was not bypassed, re-read the current status of the run and
release the chain lock unless the run is suspended waiting on a child. -/
def finallyMaybeUnlock (db : DB) (stackRunId : Nat) (taskRunId : Option Nat)
    (bypassedLock : Bool) : DB :=
  if bypassedLock then db
  else
    match db.getStackRun stackRunId with
    | some cur => if cur.status != "suspended_waiting_child" then unlockTaskChain db taskRunId else db
    | none => db

/-- The task_runs completion write for the root step of a chain (index.ts
lines 608-619). -/
def completeTaskRun (v : Val) (now : Nat) (t : TaskRun) : TaskRun :=
  { t with status := "completed", result := some v, ended_at := some now }

/-- The execution phase of processStackRunInternal (index.ts lines
596-659), entered once the lock gate has been passed: mark "processing",
dispatch, then interpret the outcome.  Success completes the run, resumes
the parent, and — for a root step of a chain — completes the enclosing
task run.  A suspension returns true and leaves the lock in place.  Any
other thrown error unlocks (when not bypassed) and fails the run.  The
finally block then releases the lock unless the run ended suspended. -/
def executeStackRun (db : DB) (stackRunId : Nat) (stackRun : StackRun)
    (resp : ServiceResponse) (resumeHttp : ResumeHttp) (now : Nat)
    (lockAcquired bypassedLock : Bool) : ProcResult :=
  let taskRunId := stackRun.parent_task_run_id
  let db1 := updateStackRunStatus db stackRunId "processing" none none now
  let dispatched := processServiceCall db1 stackRun resp now
  let db2 := dispatched.1
  match dispatched.2 with
  | .success v =>
    let db3 := updateStackRunStatus db2 stackRunId "completed" (some (some v)) none now
    let db4 := (resumeParentTask db3 stackRun v resumeHttp now).db
    let db5 :=
      if !truthyId stackRun.parent_stack_run_id && truthyId stackRun.parent_task_run_id then
        db4.mapTaskRun (taskRunId.getD 0) (completeTaskRun v now)
      else db4
    ⟨finallyMaybeUnlock db5 stackRunId taskRunId bypassedLock, true, true, lockAcquired, bypassedLock⟩
  | .suspendedChild _ =>
    ⟨finallyMaybeUnlock db2 stackRunId taskRunId bypassedLock, true, true, lockAcquired, bypassedLock⟩
  | .thrown msg =>
    let db3 := if !bypassedLock then unlockTaskChain db2 taskRunId else db2
    let db4 := updateStackRunStatus db3 stackRunId "failed" (some none) (some msg) now
    ⟨finallyMaybeUnlock db4 stackRunId taskRunId bypassedLock, false, true, lockAcquired, bypassedLock⟩

/-- processStackRunInternal (index.ts lines 526-666).  Early exits: the
run must exist and be "pending", and the chain must not be busy.  Lock
gate: the bypass rule, else a TaskLock insert; on failure the candidate is
skipped unchanged.  Otherwise execution proceeds via executeStackRun. -/
def processStackRunInternal (db : DB) (stackRunId : Nat) (resp : ServiceResponse)
    (resumeHttp : ResumeHttp) (now : Nat) : ProcResult :=
  match db.getStackRun stackRunId with
  | none => ⟨db, false, false, false, false⟩
  | some stackRun =>
    if stackRun.status != "pending" then ⟨db, false, false, false, false⟩
    else
      let taskRunId := stackRun.parent_task_run_id
      if isTaskChainBusy db taskRunId then ⟨db, false, false, false, false⟩
      else
        let bypass := canBypass db stackRun
        let acquire := if bypass then (db, true) else tryLockTaskChain db taskRunId now
        let dbA := acquire.1
        let lockAcquired := acquire.2
        let bypassedLock := bypass
        if !lockAcquired then ⟨dbA, false, false, false, false⟩
        else executeStackRun dbA stackRunId stackRun resp resumeHttp now lockAcquired bypassedLock

/-- The ascending `created_at` ordering of the pending-run query
(`.order('created_at', { ascending: true })`).  Rows with equal timestamps
come back in an unspecified order from the store; the model fixes a stable
order, which no theorem below depends on. -/
def sortByCreatedAt (l : List StackRun) : List StackRun :=
  l.insertionSort (fun a b => a.created_at ≤ b.created_at)

/-- The sibling query of getNextPendingStackRun (index.ts lines 724-729):
pending runs of the same chain created strictly earlier.  A NULL chain id
matches no rows under SQL eq. -/
def olderPendingSiblings (db : DB) (run : StackRun) : List StackRun :=
  match run.parent_task_run_id with
  | none => []
  | some t => db.stack_runs.filter (fun s =>
      s.parent_task_run_id == some t && s.status == "pending" && decide (s.created_at < run.created_at))

/-- The candidate loop of getNextPendingStackRun (index.ts lines 721-742):
return the first candidate with no older pending sibling in its chain. -/
def firstReadyPending (db : DB) : List StackRun → Option Nat
  | [] => none
  | run :: rest =>
    if (olderPendingSiblings db run).isEmpty then some run.id
    else firstReadyPending db rest

/-- getNextPendingStackRun (index.ts lines 704-746): list the pending runs
oldest first, and pick the first whose chain has no older pending run.
The function never consults `waiting_on_stack_run_id`. -/
def getNextPendingStackRun (db : DB) : Option Nat :=
  firstReadyPending db (sortByCreatedAt (db.stack_runs.filter (fun r => r.status == "pending")))

/-- processSingleStackRun (index.ts lines 669-695): select the next ready
run and process it (the fire-and-forget self-trigger is external). -/
def processSingleStackRun (db : DB) (resp : ServiceResponse) (resumeHttp : ResumeHttp)
    (now : Nat) : ProcResult :=
  match getNextPendingStackRun db with
  | none => ⟨db, false, false, false, false⟩
  | some id => processStackRunInternal db id resp resumeHttp now

/-- The POST body of a processing request (index.ts lines 770-798). -/
inductive ProcRequest where
  | stackRunId (id : Nat)
  | processNext

/-- The POST branch of the serve handler (index.ts lines 770-798): the
sweeper runs on every request, before any selection or processing. -/
def handleRequest (db : DB) (req : ProcRequest) (resp : ServiceResponse)
    (resumeHttp : ResumeHttp) (now : Nat) : ProcResult :=
  let dbSwept := cleanupStaleLocks now db
  match req with
  | .stackRunId id => processStackRunInternal dbSwept id resp resumeHttp now
  | .processNext => processSingleStackRun dbSwept resp resumeHttp now

/-- The service-name mapping of the deno-executor (part_004 lines 210-218). -/
def serviceNameMap (s : String) : String :=
  if s == "database" then "wrappedsupabase"
  else if s == "keystore" then "wrappedkeystore"
  else if s == "openai" then "wrappedopenai"
  else if s == "websearch" then "wrappedwebsearch"
  else if s == "gapi" then "wrappedgapi"
  else s

/-- `methodPath.join(".")`. -/
def joinDots : List String → String
  | [] => ""
  | [s] => s
  | s :: rest => s ++ "." ++ joinDots rest

/-- The suspension payload attached to the TASK_SUSPENDED error thrown by
makeExternalCall (part_004 lines 297-311); `stackRunId` is the id of the
freshly created child stack run. -/
structure Suspension where
  serviceName : String
  methodPath : List String
  args : List Val
  taskRunId : Nat
  stackRunId : Nat

/-- The parent update of makeExternalCall (part_004 lines 272-289). -/
def markSuspendedWaiting (childId : Nat) (now : Nat) (r : StackRun) : StackRun :=
  { r with status := "suspended_waiting_child",
           waiting_on_stack_run_id := some childId, updated_at := now }

/-- makeExternalCall (part_004 lines 198-312).  It inserts a new pending
child stack run (the store assigns the fresh id `childId`; `created_at`
and `updated_at` are the insert time), updates the calling run to
`suspended_waiting_child` waiting on the child, and then always throws the
TASK_SUSPENDED error carrying the suspension payload — the second
component of the result.  It never returns a value to the task code. -/
def makeExternalCall (db : DB) (childId : Nat) (serviceName : String)
    (methodPath : List String) (args : List Val) (taskRunId stackRunId : Nat)
    (now : Nat) : DB × Suspension :=
  let child : StackRun :=
    { id := childId
      parent_task_run_id := some taskRunId
      parent_stack_run_id := some stackRunId
      service_name := serviceNameMap serviceName
      method_name := joinDots methodPath
      args := args
      status := "pending"
      created_at := now
      updated_at := now
      waiting_on_stack_run_id := none
      resume_payload := none
      vm_state := none }
  let db1 : DB := { db with stack_runs := db.stack_runs ++ [child] }
  let db2 := db1.mapStackRun stackRunId (markSuspendedWaiting childId now)
  (db2, { serviceName := serviceName, methodPath := methodPath, args := args,
          taskRunId := taskRunId, stackRunId := childId })

/-- The `__callHostTool__` binding installed by SecureSandbox.execute
(part_004 lines 352-355).  `resumePayload` is the `_resume_payload` value
the sandbox places in the task global when a resume payload is present in
the initial vm state (lines 347-350); the binding never consults it and
delegates unconditionally to makeExternalCall, so every invocation ends in
the thrown suspension (`Except.error`) — the ok branch is unreachable. -/
def callHostTool (db : DB) (_resumePayload : Option Val) (childId : Nat)
    (serviceName : String) (methodPath : List String) (args : List Val)
    (taskRunId stackRunId : Nat) (now : Nat) : DB × Except Suspension Val :=
  let call := makeExternalCall db childId serviceName methodPath args taskRunId stackRunId now
  (call.1, Except.error call.2)

/-! Helper lemmas about the store operations. -/

@[simp] theorem mapStackRun_task_locks (db : DB) (j : Nat) (f : StackRun → StackRun) :
    (db.mapStackRun j f).task_locks = db.task_locks := rfl

@[simp] theorem mapStackRun_task_runs (db : DB) (j : Nat) (f : StackRun → StackRun) :
    (db.mapStackRun j f).task_runs = db.task_runs := rfl

@[simp] theorem mapTaskRun_task_locks (db : DB) (j : Nat) (f : TaskRun → TaskRun) :
    (db.mapTaskRun j f).task_locks = db.task_locks := rfl

@[simp] theorem mapTaskRun_stack_runs (db : DB) (j : Nat) (f : TaskRun → TaskRun) :
    (db.mapTaskRun j f).stack_runs = db.stack_runs := rfl

@[simp] theorem updateStackRunStatus_task_locks (db : DB) (j : Nat) (st : String)
    (a : Option (Option Val)) (b : Option String) (now : Nat) :
    (updateStackRunStatus db j st a b now).task_locks = db.task_locks := rfl

@[simp] theorem updateStackRunStatus_task_runs (db : DB) (j : Nat) (st : String)
    (a : Option (Option Val)) (b : Option String) (now : Nat) :
    (updateStackRunStatus db j st a b now).task_runs = db.task_runs := rfl

/-- Reading a row after an id-targeted update: the targeted rewrite applied
to whatever the read would have found, provided the update preserves ids. -/
theorem getStackRun_mapStackRun (db : DB) (j k : Nat) (f : StackRun → StackRun)
    (hf : ∀ r, (f r).id = r.id) :
    (db.mapStackRun j f).getStackRun k =
      (db.getStackRun k).map (fun r => if r.id == j then f r else r) := by
  unfold DB.getStackRun DB.mapStackRun
  rw [List.find?_map]
  have hp : ((fun r : StackRun => r.id == k) ∘ fun r => if r.id == j then f r else r)
      = fun r : StackRun => r.id == k := by
    funext r
    by_cases h : r.id == j <;> simp [Function.comp, h, hf]
  rw [hp]

theorem getStackRun_mapStackRun_self (db : DB) (j : Nat) (f : StackRun → StackRun)
    (hf : ∀ r, (f r).id = r.id) (r : StackRun) (h : db.getStackRun j = some r) :
    (db.mapStackRun j f).getStackRun j = some (f r) := by
  have hid : (r.id == j) = true := by
    have := List.find?_some (p := fun r : StackRun => r.id == j) (by simpa [DB.getStackRun] using h)
    simpa using this
  have hj : r.id = j := by simpa using hid
  rw [getStackRun_mapStackRun db j j f hf, h]
  simp [hj]

theorem getStackRun_mapStackRun_other (db : DB) (j k : Nat) (f : StackRun → StackRun)
    (hf : ∀ r, (f r).id = r.id) (hne : k ≠ j) :
    (db.mapStackRun j f).getStackRun k = db.getStackRun k := by
  rw [getStackRun_mapStackRun db j k f hf]
  cases h : db.getStackRun k with
  | none => rfl
  | some r =>
    have hid : (r.id == k) = true := by
      have := List.find?_some (p := fun r : StackRun => r.id == k) (by simpa [DB.getStackRun] using h)
      simpa using this
    have hrk : r.id = k := by simpa using hid
    simp [hrk, hne]

theorem getTaskRun_mapTaskRun (db : DB) (j k : Nat) (f : TaskRun → TaskRun)
    (hf : ∀ t, (f t).id = t.id) :
    (db.mapTaskRun j f).getTaskRun k =
      (db.getTaskRun k).map (fun t => if t.id == j then f t else t) := by
  unfold DB.getTaskRun DB.mapTaskRun
  rw [List.find?_map]
  have hp : ((fun t : TaskRun => t.id == k) ∘ fun t => if t.id == j then f t else t)
      = fun t : TaskRun => t.id == k := by
    funext t
    by_cases h : t.id == j <;> simp [Function.comp, h, hf]
  rw [hp]

@[simp] theorem applyStatusUpdate_id (st : String) (a : Option (Option Val))
    (b : Option String) (now : Nat) (r : StackRun) :
    (applyStatusUpdate st a b now r).id = r.id := by
  unfold applyStatusUpdate
  cases a <;> cases b <;> dsimp <;> split <;> rfl

@[simp] theorem applyStatusUpdate_status (st : String) (a : Option (Option Val))
    (b : Option String) (now : Nat) (r : StackRun) :
    (applyStatusUpdate st a b now r).status = st := by
  unfold applyStatusUpdate
  cases a <;> cases b <;> dsimp <;> split <;> rfl

@[simp] theorem applyStatusUpdate_parent_task (st : String) (a : Option (Option Val))
    (b : Option String) (now : Nat) (r : StackRun) :
    (applyStatusUpdate st a b now r).parent_task_run_id = r.parent_task_run_id := by
  unfold applyStatusUpdate
  cases a <;> cases b <;> dsimp <;> split <;> rfl

@[simp] theorem applyStatusUpdate_parent_stack (st : String) (a : Option (Option Val))
    (b : Option String) (now : Nat) (r : StackRun) :
    (applyStatusUpdate st a b now r).parent_stack_run_id = r.parent_stack_run_id := by
  unfold applyStatusUpdate
  cases a <;> cases b <;> dsimp <;> split <;> rfl

@[simp] theorem setWaitingOn_id (c : Option Nat) (now : Nat) (r : StackRun) :
    (setWaitingOn c now r).id = r.id := by
  unfold setWaitingOn
  cases c <;> rfl

@[simp] theorem setWaitingOn_status (c : Option Nat) (now : Nat) (r : StackRun) :
    (setWaitingOn c now r).status = r.status := by
  unfold setWaitingOn
  cases c <;> rfl

@[simp] theorem setResumePayload_id (v : Val) (now : Nat) (r : StackRun) :
    (setResumePayload v now r).id = r.id := rfl

@[simp] theorem setResumePayload_status (v : Val) (now : Nat) (r : StackRun) :
    (setResumePayload v now r).status = r.status := rfl

@[simp] theorem completeTaskRun_id (v : Val) (now : Nat) (t : TaskRun) :
    (completeTaskRun v now t).id = t.id := rfl

@[simp] theorem markSuspendedWaiting_id (c : Nat) (now : Nat) (r : StackRun) :
    (markSuspendedWaiting c now r).id = r.id := rfl

theorem statusOf_updateStackRunStatus_self (db : DB) (j : Nat) (st : String)
    (a : Option (Option Val)) (b : Option String) (now : Nat) (r : StackRun)
    (h : db.getStackRun j = some r) :
    statusOf (updateStackRunStatus db j st a b now) j = some st := by
  unfold statusOf updateStackRunStatus
  rw [getStackRun_mapStackRun_self db j _ (fun r => applyStatusUpdate_id st a b now r) r h]
  simp

theorem getStackRun_updateStackRunStatus_other (db : DB) (j k : Nat) (st : String)
    (a : Option (Option Val)) (b : Option String) (now : Nat) (hne : k ≠ j) :
    (updateStackRunStatus db j st a b now).getStackRun k = db.getStackRun k := by
  unfold updateStackRunStatus
  exact getStackRun_mapStackRun_other db j k _ (fun r => applyStatusUpdate_id st a b now r) hne

/-! C8 — the sweeper. -/

/-- The store used in the C8 counterexample: a single chain lock two
minutes old. -/
def c8DB : DB := { task_locks := [{ task_run_id := 1, locked_at := 400000 }] }

/-- C8, counterexample: the claim says both sweeper thresholds are
configurable.  With a configured T_lock_stale of one minute the spec-
modelled sweep deletes a two-minute-old lock (at now = 600000 ms), but the
code, whose thresholds are hard-coded literals, retains it: no
configuration can reproduce the claimed behavior, so the thresholds are
not configurable. -/
theorem c8_counterexample :
    (sweepSpec 60000 120000 600000 c8DB).task_locks = [] ∧
    (cleanupStaleLocks 600000 c8DB).task_locks = [{ task_run_id := 1, locked_at := 400000 }] := by
  constructor <;> rfl

/-- C8, amended: on every incoming processing request, before any step
selection, the sweeper deletes every TaskLock strictly older than five
minutes and transitions every stack run stuck in "processing" strictly
longer than two minutes to "failed" with the synthetic timeout error; the
two thresholds are hard-coded constants (five and two minutes), i.e. the
code coincides with the spec sweep exactly at the default thresholds. -/
theorem c8_sweeper_amended (now : Nat) (db : DB) :
    cleanupStaleLocks now db = sweepSpec (5 * 60 * 1000) (2 * 60 * 1000) now db ∧
    (∀ l, l ∈ (cleanupStaleLocks now db).task_locks ↔
      l ∈ db.task_locks ∧ now - 5 * 60 * 1000 ≤ l.locked_at) ∧
    (∀ r ∈ db.stack_runs, r.status = "processing" → r.updated_at < now - 2 * 60 * 1000 →
      { r with status := "failed", error := some timeoutErrorMsg } ∈ (cleanupStaleLocks now db).stack_runs) ∧
    (∀ r ∈ db.stack_runs, ¬ (r.status = "processing" ∧ r.updated_at < now - 2 * 60 * 1000) →
      r ∈ (cleanupStaleLocks now db).stack_runs) ∧
    (cleanupStaleLocks now db).task_runs = db.task_runs ∧
    (∀ (req : ProcRequest) (resp : ServiceResponse) (rh : ResumeHttp),
      handleRequest db req resp rh now =
        match req with
        | .stackRunId i => processStackRunInternal (cleanupStaleLocks now db) i resp rh now
        | .processNext => processSingleStackRun (cleanupStaleLocks now db) resp rh now) := by
  refine ⟨rfl, ?_, ?_, ?_, rfl, ?_⟩
  · intro l
    simp [cleanupStaleLocks, List.mem_filter]
  · intro r hr hst hold
    simp only [cleanupStaleLocks, List.mem_map]
    refine ⟨r, hr, ?_⟩
    simp [hst, hold]
  · intro r hr hnot
    simp only [cleanupStaleLocks, List.mem_map]
    refine ⟨r, hr, ?_⟩
    by_cases h1 : r.status = "processing"
    · have h2 : ¬ r.updated_at < now - 2 * 60 * 1000 := fun h => hnot ⟨h1, h⟩
      simp [h1, h2]
    · simp [h1]
  · intro req resp rh
    cases req <;> rfl

/-! C1 — step selection. -/

/-- C1 counterexample store: one chain (task run 10) whose root step 1 is
suspended and explicitly awaits its later child 3 via
waiting_on_stack_run_id, while an older unrelated sibling 2 is also
pending. -/
def c1DB : DB :=
  { stack_runs :=
      [ { id := 1, parent_task_run_id := some 10, status := "suspended_waiting_child",
          waiting_on_stack_run_id := some 3, created_at := 1 },
        { id := 2, parent_task_run_id := some 10, parent_stack_run_id := some 1,
          status := "pending", created_at := 5 },
        { id := 3, parent_task_run_id := some 10, parent_stack_run_id := some 1,
          status := "pending", created_at := 6 } ] }

/-- C1, counterexample: the claim allows the later sibling that the parent
explicitly awaits (run 3, awaited via waiting_on_stack_run_id = 3) to be
selected ahead of its older pending sibling (run 2).  The selection is
deterministic and picks the older sibling 2, never the awaited 3: the code
never consults waiting_on_stack_run_id, so the claimed override does not
exist. -/
theorem c1_counterexample :
    getNextPendingStackRun c1DB = some 2 ∧
    getNextPendingStackRun c1DB ≠ some 3 ∧
    statusOf c1DB 2 = some "pending" ∧
    statusOf c1DB 3 = some "pending" ∧
    (c1DB.getStackRun 1).map (fun r => r.status) = some "suspended_waiting_child" ∧
    (c1DB.getStackRun 1).map (fun r => r.waiting_on_stack_run_id) = some (some 3) ∧
    (c1DB.getStackRun 2).map (fun r => r.created_at) = some 5 ∧
    (c1DB.getStackRun 3).map (fun r => r.created_at) = some 6 := by
  refine ⟨rfl, ?_, rfl, rfl, rfl, rfl, rfl, rfl⟩
  intro h
  simp [getNextPendingStackRun, c1DB, sortByCreatedAt, firstReadyPending,
    olderPendingSiblings, List.insertionSort, List.orderedInsert] at h

/-- C1, amended: the scheduler selects a pending stack run of globally
minimal created_at — in particular one with no older pending sibling in
its own chain; waiting_on_stack_run_id plays no role in the selection, and
nothing is selected exactly when no stack run is pending. -/
theorem c1_selection_amended (db : DB) :
    (getNextPendingStackRun db = none ↔ ∀ r ∈ db.stack_runs, ¬ r.status = "pending") ∧
    (∀ i, getNextPendingStackRun db = some i →
      ∃ r ∈ db.stack_runs, r.id = i ∧ r.status = "pending" ∧
        ∀ s ∈ db.stack_runs, s.status = "pending" → r.created_at ≤ s.created_at) := by
  have hperm : (sortByCreatedAt (db.stack_runs.filter (fun r => r.status == "pending"))).Perm
      (db.stack_runs.filter (fun r => r.status == "pending")) :=
    List.perm_insertionSort _ _
  have hsort : List.Sorted (fun a b : StackRun => a.created_at ≤ b.created_at)
      (sortByCreatedAt (db.stack_runs.filter (fun r => r.status == "pending"))) := by
    haveI ht : IsTotal StackRun (fun a b : StackRun => a.created_at ≤ b.created_at) :=
      ⟨fun a b => Nat.le_total _ _⟩
    haveI htr : IsTrans StackRun (fun a b : StackRun => a.created_at ≤ b.created_at) :=
      ⟨fun _ _ _ => Nat.le_trans⟩
    exact List.sorted_insertionSort _ _
  cases hs : sortByCreatedAt (db.stack_runs.filter (fun r => r.status == "pending")) with
  | nil =>
    have hpe : db.stack_runs.filter (fun r => r.status == "pending") = [] := by
      have := hs ▸ hperm
      exact this.symm.eq_nil
    have hnone : getNextPendingStackRun db = none := by
      unfold getNextPendingStackRun
      rw [hs]
      rfl
    constructor
    · rw [hnone]
      simp only [true_iff]
      intro r hr hp
      have : r ∈ db.stack_runs.filter (fun r => r.status == "pending") :=
        List.mem_filter.mpr ⟨hr, by simp [hp]⟩
      rw [hpe] at this
      exact absurd this (List.not_mem_nil r)
    · intro i hi
      rw [hnone] at hi
      exact absurd hi (by simp)
  | cons hd rest =>
    have hhdmem : hd ∈ db.stack_runs.filter (fun r => r.status == "pending") :=
      hperm.mem_iff.mp (hs ▸ List.mem_cons_self hd rest)
    have hhdruns : hd ∈ db.stack_runs := (List.mem_filter.mp hhdmem).1
    have hhdpend : hd.status = "pending" := by
      have := (List.mem_filter.mp hhdmem).2
      simpa using this
    have hmin : ∀ s ∈ db.stack_runs, s.status = "pending" → hd.created_at ≤ s.created_at := by
      intro s hs' hsp
      have hsf : s ∈ db.stack_runs.filter (fun r => r.status == "pending") :=
        List.mem_filter.mpr ⟨hs', by simp [hsp]⟩
      have hsmem := hperm.mem_iff.mpr hsf
      rw [hs] at hsmem
      rcases List.mem_cons.mp hsmem with h | h
      · exact h ▸ Nat.le_refl _
      · have := hs ▸ hsort
        exact List.rel_of_sorted_cons this s h
    have hready : olderPendingSiblings db hd = [] := by
      unfold olderPendingSiblings
      cases hpt : hd.parent_task_run_id with
      | none => rfl
      | some t =>
        rw [List.filter_eq_nil_iff]
        intro s hs' hcontra
        simp only [Bool.and_eq_true, decide_eq_true_eq, beq_iff_eq] at hcontra
        obtain ⟨⟨_, hsp⟩, hlt⟩ := hcontra
        exact absurd (hmin s hs' hsp) (Nat.not_le.mpr hlt)
    have hnext : getNextPendingStackRun db = some hd.id := by
      unfold getNextPendingStackRun
      rw [hs]
      unfold firstReadyPending
      rw [hready]
      rfl
    constructor
    · rw [hnext]
      constructor
      · intro h
        exact absurd h (by simp)
      · intro h
        exact absurd hhdpend (h hd hhdruns)
    · intro i hi
      rw [hnext] at hi
      have : hd.id = i := by injection hi
      exact ⟨hd, hhdruns, this, hhdpend, hmin⟩

/-! C2 — resume replay semantics of the sandbox. -/

/-- C2 counterexample store: stack run 5 (chain 9) is the step being
re-executed on resume. -/
def c2DB : DB :=
  { stack_runs := [ { id := 5, parent_task_run_id := some 9, status := "processing" } ] }

/-- C2, counterexample: the task is resumed with a stored prior external
result available (the resume payload, value 41) — per the claim the first
callHostTool invocation should consume it and return it instead of
suspending.  Instead the invocation suspends: it raises the suspension
error and creates a fresh pending child stack run 6, with the resumed step
5 set waiting on it.  No replay log is consumed, ever. -/
theorem c2_counterexample :
    (callHostTool c2DB (some (.num 41)) 6 "gapi" ["admin", "domains", "list"] [] 9 5 100).2 =
      Except.error { serviceName := "gapi", methodPath := ["admin", "domains", "list"],
                     args := [], taskRunId := 9, stackRunId := 6 } ∧
    statusOf (callHostTool c2DB (some (.num 41)) 6 "gapi" ["admin", "domains", "list"] [] 9 5 100).1 6 =
      some "pending" ∧
    statusOf (callHostTool c2DB (some (.num 41)) 6 "gapi" ["admin", "domains", "list"] [] 9 5 100).1 5 =
      some "suspended_waiting_child" ∧
    ((callHostTool c2DB (some (.num 41)) 6 "gapi" ["admin", "domains", "list"] [] 9 5 100).1.getStackRun 5).map
      (fun r => r.waiting_on_stack_run_id) = some (some 6) := by
  exact ⟨rfl, rfl, rfl, rfl⟩

/-- C2, amended: on resume the task code is re-executed from the top with
the single prior child result exposed only as the `_resume_payload`
binding; every callHostTool invocation — whatever resume payload is
present — unconditionally suspends: it inserts a fresh pending child stack
run, marks the calling step suspended_waiting_child waiting on that child,
and raises the suspension error.  It never returns a recorded result. -/
theorem c2_always_suspends (db : DB) (payload : Option Val) (childId : Nat)
    (svc : String) (mp : List String) (args : List Val) (trid srid now : Nat)
    (hfresh : ∀ r ∈ db.stack_runs, r.id ≠ childId) (hne : childId ≠ srid) :
    (callHostTool db payload childId svc mp args trid srid now).2 =
      Except.error { serviceName := svc, methodPath := mp, args := args,
                     taskRunId := trid, stackRunId := childId } ∧
    statusOf (callHostTool db payload childId svc mp args trid srid now).1 childId = some "pending" ∧
    (∀ p, db.getStackRun srid = some p →
      statusOf (callHostTool db payload childId svc mp args trid srid now).1 srid =
        some "suspended_waiting_child" ∧
      ((callHostTool db payload childId svc mp args trid srid now).1.getStackRun srid).map
        (fun r => r.waiting_on_stack_run_id) = some (some childId)) := by
  refine ⟨rfl, ?_, ?_⟩
  all_goals
    unfold callHostTool makeExternalCall
    dsimp only
  · unfold statusOf
    rw [getStackRun_mapStackRun _ srid childId _ (fun r => markSuspendedWaiting_id childId now r)]
    unfold DB.getStackRun
    dsimp only
    rw [List.find?_append]
    have hnone : db.stack_runs.find? (fun r => r.id == childId) = none := by
      rw [List.find?_eq_none]
      intro r hr
      simpa using hfresh r hr
    rw [hnone]
    simp [hne]
  · intro p hp
    constructor
    · unfold statusOf
      rw [getStackRun_mapStackRun _ srid srid _ (fun r => markSuspendedWaiting_id childId now r)]
      unfold DB.getStackRun
      dsimp only
      rw [List.find?_append]
      have hfind : db.stack_runs.find? (fun r => r.id == srid) = some p := hp
      rw [hfind]
      have hid : (p.id == srid) = true := by
        have := List.find?_some (p := fun r : StackRun => r.id == srid) (by simpa [DB.getStackRun] using hp)
        simpa using this
      have hpr : p.id = srid := by simpa using hid
      simp [Option.or, hpr, markSuspendedWaiting]
    · rw [getStackRun_mapStackRun _ srid srid _ (fun r => markSuspendedWaiting_id childId now r)]
      unfold DB.getStackRun
      dsimp only
      rw [List.find?_append]
      have hfind : db.stack_runs.find? (fun r => r.id == srid) = some p := hp
      rw [hfind]
      have hid : (p.id == srid) = true := by
        have := List.find?_some (p := fun r : StackRun => r.id == srid) (by simpa [DB.getStackRun] using hp)
        simpa using this
      have hpr : p.id = srid := by simpa using hid
      simp [Option.or, hpr, markSuspendedWaiting]

/-- Witness for c2_always_suspends: a concrete resumed step (run 2 of
chain 3, with a stored prior result) whose next host call suspends by
creating pending child 7. -/
theorem c2_always_suspends_witness :
    (callHostTool { stack_runs := [{ id := 2, parent_task_run_id := some 3, status := "processing" }] }
        (some (.str "prior")) 7 "openai" ["chat"] [] 3 2 50).2 =
      Except.error { serviceName := "openai", methodPath := ["chat"], args := [],
                     taskRunId := 3, stackRunId := 7 } ∧
    statusOf (callHostTool { stack_runs := [{ id := 2, parent_task_run_id := some 3, status := "processing" }] }
        (some (.str "prior")) 7 "openai" ["chat"] [] 3 2 50).1 7 = some "pending" ∧
    (∀ p, DB.getStackRun { stack_runs := [{ id := 2, parent_task_run_id := some 3, status := "processing" }] } 2 = some p →
      statusOf (callHostTool { stack_runs := [{ id := 2, parent_task_run_id := some 3, status := "processing" }] }
          (some (.str "prior")) 7 "openai" ["chat"] [] 3 2 50).1 2 = some "suspended_waiting_child" ∧
      ((callHostTool { stack_runs := [{ id := 2, parent_task_run_id := some 3, status := "processing" }] }
          (some (.str "prior")) 7 "openai" ["chat"] [] 3 2 50).1.getStackRun 2).map
        (fun r => r.waiting_on_stack_run_id) = some (some 7)) :=
  c2_always_suspends _ (some (.str "prior")) 7 "openai" ["chat"] [] 3 2 50
    (by intro r hr; rw [List.mem_singleton] at hr; subst hr; decide) (by decide)

/-! C4 and C10 — the resumption path. -/

theorem getStackRun_updateStackRunStatus_self (db : DB) (j : Nat) (st : String)
    (a : Option (Option Val)) (b : Option String) (now : Nat) (r : StackRun)
    (h : db.getStackRun j = some r) :
    (updateStackRunStatus db j st a b now).getStackRun j = some (applyStatusUpdate st a b now r) := by
  unfold updateStackRunStatus
  exact getStackRun_mapStackRun_self db j _ (fun r => applyStatusUpdate_id st a b now r) r h

@[simp] theorem applyStatusUpdate_error_some (st : String) (a : Option (Option Val))
    (e : String) (now : Nat) (r : StackRun) :
    (applyStatusUpdate st a (some e) now r).error = some e := by
  unfold applyStatusUpdate
  cases a <;> dsimp <;> split <;> rfl

/-- Does the resume HTTP call throw in resumeParentTask (a transport
failure, or a truthy `error` field in the reply)? -/
def resumeCallThrows : ResumeHttp → Bool
  | .httpFail _ => true
  | .parsed v => truthyField v "error"

/-- The guard conditions under which resumeParentTask actually resumes. -/
def ResumeGuard (db : DB) (c : StackRun) : Prop :=
  truthyId c.parent_stack_run_id = true ∧
  ∃ p, db.getStackRun (c.parent_stack_run_id.getD 0) = some p ∧
    p.status = "suspended_waiting_child" ∧ p.waiting_on_stack_run_id = some c.id

/-- When any guard fails, resumeParentTask is a no-op. -/
theorem resumeParentTask_noop (db : DB) (c : StackRun) (v : Val) (ro : ResumeHttp)
    (now : Nat) (h : ¬ ResumeGuard db c) :
    resumeParentTask db c v ro now = ⟨db, false⟩ := by
  unfold resumeParentTask
  by_cases hty : truthyId c.parent_stack_run_id = true
  · rw [hty]
    dsimp only [Bool.not_true, Bool.false_eq_true, if_false]
    cases hp : db.getStackRun (c.parent_stack_run_id.getD 0) with
    | none => rfl
    | some p =>
      by_cases hst : p.status = "suspended_waiting_child"
      · by_cases hw : p.waiting_on_stack_run_id = some c.id
        · exact absurd ⟨hty, p, hp, hst, hw⟩ h
        · have : (p.waiting_on_stack_run_id != some c.id) = true := by
            simpa using hw
          simp only [hst, this]
          simp
      · have : (p.status != "suspended_waiting_child") = true := by simpa using hst
        simp only [this]
        simp
  · have : truthyId c.parent_stack_run_id = false := by
      cases hb : truthyId c.parent_stack_run_id with
      | false => rfl
      | true => exact absurd hb hty
    rw [this]
    rfl

/-- When the guards hold, resumeParentTask issues the resume and leaves the
parent row in one of the post-resume statuses, never suspended again. -/
theorem resumeParentTask_after (db : DB) (c : StackRun) (v : Val) (ro : ResumeHttp)
    (now : Nat) (pid : Nat) (hpid : c.parent_stack_run_id = some pid)
    (hty : truthyId c.parent_stack_run_id = true)
    (p : StackRun) (hp : db.getStackRun pid = some p)
    (hst : p.status = "suspended_waiting_child")
    (hw : p.waiting_on_stack_run_id = some c.id) :
    (resumeParentTask db c v ro now).attempted = true ∧
    ∃ q, (resumeParentTask db c v ro now).db.getStackRun pid = some q ∧
      (q.status = "pending_resume" ∨ q.status = "completed" ∨ q.status = "failed") := by
  have hgetD : c.parent_stack_run_id.getD 0 = pid := by rw [hpid]; rfl
  have hne1 : (p.status != "suspended_waiting_child") = false := by simp [hst]
  have hne2 : (p.waiting_on_stack_run_id != some c.id) = false := by simp [hw]
  have hp1 : (updateStackRunStatus db pid "pending_resume" none none now).getStackRun pid =
      some (applyStatusUpdate "pending_resume" none none now p) :=
    getStackRun_updateStackRunStatus_self db pid _ none none now p hp
  have hp2 : ((updateStackRunStatus db pid "pending_resume" none none now).mapStackRun pid
        (setResumePayload (formatResult c v) now)).getStackRun pid =
      some (setResumePayload (formatResult c v) now (applyStatusUpdate "pending_resume" none none now p)) :=
    getStackRun_mapStackRun_self _ pid _ (fun r => setResumePayload_id _ now r) _ hp1
  unfold resumeParentTask
  simp only [hty, Bool.not_true, Bool.false_eq_true, if_false, hgetD, hp, hne1, hne2]
  cases ro with
  | httpFail status =>
    dsimp only
    refine ⟨rfl, ?_⟩
    exact ⟨_, getStackRun_updateStackRunStatus_self _ pid _ _ _ now _ hp2, by simp⟩
  | parsed rr =>
    dsimp only
    by_cases herr : truthyField rr "error" = true
    · rw [if_pos herr]
      refine ⟨rfl, ?_⟩
      exact ⟨_, getStackRun_updateStackRunStatus_self _ pid _ _ _ now _ hp2, by simp⟩
    · rw [if_neg herr]
      by_cases hc1 : (truthyField rr "data" && isStrField (fieldOrSelf rr "data") "status" "completed") = true
      · rw [if_pos hc1]
        refine ⟨rfl, ?_⟩
        exact ⟨_, getStackRun_updateStackRunStatus_self _ pid _ _ _ now _ hp2, by simp⟩
      · rw [if_neg hc1]
        by_cases hc2 : (truthyField rr "data" && isStrField (fieldOrSelf rr "data") "status" "error") = true
        · rw [if_pos hc2]
          refine ⟨rfl, ?_⟩
          exact ⟨_, getStackRun_updateStackRunStatus_self _ pid _ _ _ now _ hp2, by simp⟩
        · rw [if_neg hc2]
          refine ⟨rfl, ?_⟩
          exact ⟨_, hp2, by simp⟩

/-- C4: resumeParentTask resumes the parent iff the parent is
suspended_waiting_child and waiting exactly on the completed child; any
other resume attempt leaves the store untouched, and running the resume a
second time for the same (parent, child) pair never changes the store
again — the terminal parent state is stable under duplicated triggers. -/
theorem c4_resume_guard_idempotent (db : DB) (c : StackRun) (v v2 : Val)
    (ro ro2 : ResumeHttp) (now now2 : Nat) :
    ((resumeParentTask db c v ro now).attempted = true ↔ ResumeGuard db c) ∧
    ((resumeParentTask db c v ro now).attempted = false →
      (resumeParentTask db c v ro now).db = db) ∧
    (resumeParentTask (resumeParentTask db c v ro now).db c v2 ro2 now2).db =
      (resumeParentTask db c v ro now).db := by
  by_cases hg : ResumeGuard db c
  · obtain ⟨hty, p, hp, hst, hw⟩ := hg
    obtain ⟨pid, hpid⟩ : ∃ pid, c.parent_stack_run_id = some pid := by
      cases hx : c.parent_stack_run_id with
      | none => rw [hx] at hty; exact absurd hty (by simp [truthyId])
      | some n => exact ⟨n, rfl⟩
    have hgetD : c.parent_stack_run_id.getD 0 = pid := by rw [hpid]; rfl
    rw [hgetD] at hp
    obtain ⟨hatt, q, hq, hqst⟩ := resumeParentTask_after db c v ro now pid hpid hty p hp hst hw
    refine ⟨⟨fun _ => ⟨hty, p, by rw [hgetD]; exact hp, hst, hw⟩, fun _ => hatt⟩, ?_, ?_⟩
    · intro hfalse
      rw [hatt] at hfalse
      exact absurd hfalse (by simp)
    · have hnog : ¬ ResumeGuard (resumeParentTask db c v ro now).db c := by
        intro hg2
        obtain ⟨_, p', hp', hst', _⟩ := hg2
        rw [hgetD, hq] at hp'
        have hpq : p' = q := by injection hp' with hpq; exact hpq.symm
        rcases hqst with h | h | h <;> rw [hpq, h] at hst' <;> exact absurd hst' (by decide)
      rw [resumeParentTask_noop _ c v2 ro2 now2 hnog]
  · rw [resumeParentTask_noop db c v ro now hg]
    refine ⟨?_, fun _ => rfl, ?_⟩
    · constructor
      · intro h
        exact absurd h (by simp)
      · intro h
        exact absurd h hg
    · rw [resumeParentTask_noop db c v2 ro2 now2 hg]

/-- C10: when the resume HTTP call to the executor throws — transport
failure or an error field in the reply — the catch block of
resumeParentTask sets the parent stack run to "failed" with an error
message prefixed "Resume failed: ", even though the awaited child record
itself (fetched before, completed) is left untouched by the resume. -/
theorem c10_resume_failure_fails_parent (db : DB) (c : StackRun) (v : Val)
    (ro : ResumeHttp) (now : Nat) (pid : Nat) (p : StackRun)
    (hpid : c.parent_stack_run_id = some pid)
    (hty : truthyId c.parent_stack_run_id = true)
    (hp : db.getStackRun pid = some p)
    (hst : p.status = "suspended_waiting_child")
    (hw : p.waiting_on_stack_run_id = some c.id)
    (hthrow : resumeCallThrows ro = true)
    (hne : c.id ≠ pid) :
    (resumeParentTask db c v ro now).attempted = true ∧
    statusOf (resumeParentTask db c v ro now).db pid = some "failed" ∧
    (∃ m, ((resumeParentTask db c v ro now).db.getStackRun pid).map (fun r => r.error) =
        some (some ("Resume failed: " ++ m))) ∧
    (resumeParentTask db c v ro now).db.getStackRun c.id = db.getStackRun c.id := by
  have hgetD : c.parent_stack_run_id.getD 0 = pid := by rw [hpid]; rfl
  have hne1 : (p.status != "suspended_waiting_child") = false := by simp [hst]
  have hne2 : (p.waiting_on_stack_run_id != some c.id) = false := by simp [hw]
  have hp1 : (updateStackRunStatus db pid "pending_resume" none none now).getStackRun pid =
      some (applyStatusUpdate "pending_resume" none none now p) :=
    getStackRun_updateStackRunStatus_self db pid _ none none now p hp
  have hp2 : ((updateStackRunStatus db pid "pending_resume" none none now).mapStackRun pid
        (setResumePayload (formatResult c v) now)).getStackRun pid =
      some (setResumePayload (formatResult c v) now (applyStatusUpdate "pending_resume" none none now p)) :=
    getStackRun_mapStackRun_self _ pid _ (fun r => setResumePayload_id _ now r) _ hp1
  have hother : ∀ (d : DB) (st : String) (a : Option (Option Val)) (b : Option String),
      d.getStackRun c.id = db.getStackRun c.id →
      (updateStackRunStatus d pid st a b now).getStackRun c.id = db.getStackRun c.id := by
    intro d st a b hd
    rw [getStackRun_updateStackRunStatus_other d pid c.id st a b now hne]
    exact hd
  have hother2 : ((updateStackRunStatus db pid "pending_resume" none none now).mapStackRun pid
        (setResumePayload (formatResult c v) now)).getStackRun c.id = db.getStackRun c.id := by
    rw [getStackRun_mapStackRun_other _ pid c.id _ (fun r => setResumePayload_id _ now r) hne]
    exact getStackRun_updateStackRunStatus_other db pid c.id _ none none now hne
  unfold resumeParentTask
  simp only [hty, Bool.not_true, Bool.false_eq_true, if_false, hgetD, hp, hne1, hne2]
  cases ro with
  | httpFail status =>
    dsimp only
    refine ⟨rfl, ?_, ?_, ?_⟩
    · unfold statusOf
      rw [getStackRun_updateStackRunStatus_self _ pid _ _ _ now _ hp2]
      simp
    · refine ⟨"Failed to resume parent: " ++ toString status, ?_⟩
      rw [getStackRun_updateStackRunStatus_self _ pid _ _ _ now _ hp2]
      simp
      rw [← String.append_assoc]
      have hlit : ("Resume failed: " : String) ++ "Failed to resume parent: " =
          "Resume failed: Failed to resume parent: " := rfl
      rw [hlit]
    · exact hother _ _ _ _ hother2
  | parsed rr =>
    dsimp only
    have herr : truthyField rr "error" = true := by simpa [resumeCallThrows] using hthrow
    rw [if_pos herr]
    refine ⟨rfl, ?_, ?_, ?_⟩
    · unfold statusOf
      rw [getStackRun_updateStackRunStatus_self _ pid _ _ _ now _ hp2]
      simp
    · refine ⟨"Failed to resume parent: " ++ jsString (fieldOrSelf rr "error"), ?_⟩
      rw [getStackRun_updateStackRunStatus_self _ pid _ _ _ now _ hp2]
      simp
      rw [← String.append_assoc]
      have hlit : ("Resume failed: " : String) ++ "Failed to resume parent: " =
          "Resume failed: Failed to resume parent: " := rfl
      rw [hlit]
    · exact hother _ _ _ _ hother2

/-- Witness for c10_resume_failure_fails_parent: parent 1 awaits child 2;
the resume call returns HTTP 500; the parent ends failed with a
"Resume failed: " error while child 2 stays completed. -/
theorem c10_resume_failure_fails_parent_witness :
    (resumeParentTask
        { stack_runs := [ { id := 1, parent_task_run_id := some 4, status := "suspended_waiting_child",
                            waiting_on_stack_run_id := some 2 },
                          { id := 2, parent_task_run_id := some 4, parent_stack_run_id := some 1,
                            status := "completed", result := some (.num 7) } ] }
        { id := 2, parent_task_run_id := some 4, parent_stack_run_id := some 1,
          status := "completed", result := some (.num 7) }
        (.num 7) (.httpFail 500) 99).attempted = true ∧
    statusOf (resumeParentTask
        { stack_runs := [ { id := 1, parent_task_run_id := some 4, status := "suspended_waiting_child",
                            waiting_on_stack_run_id := some 2 },
                          { id := 2, parent_task_run_id := some 4, parent_stack_run_id := some 1,
                            status := "completed", result := some (.num 7) } ] }
        { id := 2, parent_task_run_id := some 4, parent_stack_run_id := some 1,
          status := "completed", result := some (.num 7) }
        (.num 7) (.httpFail 500) 99).db 1 = some "failed" ∧
    (∃ m, ((resumeParentTask
        { stack_runs := [ { id := 1, parent_task_run_id := some 4, status := "suspended_waiting_child",
                            waiting_on_stack_run_id := some 2 },
                          { id := 2, parent_task_run_id := some 4, parent_stack_run_id := some 1,
                            status := "completed", result := some (.num 7) } ] }
        { id := 2, parent_task_run_id := some 4, parent_stack_run_id := some 1,
          status := "completed", result := some (.num 7) }
        (.num 7) (.httpFail 500) 99).db.getStackRun 1).map (fun r => r.error) =
        some (some ("Resume failed: " ++ m))) ∧
    (resumeParentTask
        { stack_runs := [ { id := 1, parent_task_run_id := some 4, status := "suspended_waiting_child",
                            waiting_on_stack_run_id := some 2 },
                          { id := 2, parent_task_run_id := some 4, parent_stack_run_id := some 1,
                            status := "completed", result := some (.num 7) } ] }
        { id := 2, parent_task_run_id := some 4, parent_stack_run_id := some 1,
          status := "completed", result := some (.num 7) }
        (.num 7) (.httpFail 500) 99).db.getStackRun 2 =
      DB.getStackRun
        { stack_runs := [ { id := 1, parent_task_run_id := some 4, status := "suspended_waiting_child",
                            waiting_on_stack_run_id := some 2 },
                          { id := 2, parent_task_run_id := some 4, parent_stack_run_id := some 1,
                            status := "completed", result := some (.num 7) } ] } 2 :=
  c10_resume_failure_fails_parent _ _ (.num 7) (.httpFail 500) 99 1 _
    rfl rfl rfl rfl rfl rfl (by decide)

/-! Machinery for the scheduler claims (C3, C5, C6, C7, C9). -/

/-- The outcome classification of processServiceCall depends only on the
run and the response, never on the store. -/
def classifyResponse (run : StackRun) (resp : ServiceResponse) : CallOutcome :=
  match resp with
  | .httpFail status =>
    if run.service_name == "deno-executor" && run.method_name == "execute" then
      .thrown ("Deno-executor call failed: " ++ toString status)
    else if run.service_name == "tasks" && run.method_name == "execute" then
      .thrown ("Tasks call failed: " ++ toString status)
    else
      .thrown (run.service_name ++ " call failed: " ++ toString status)
  | .parsed v =>
    if truthyField v "error" then
      .thrown ("Service call failed: " ++ jsString (fieldOrSelf v "error"))
    else
      let result := fieldOrSelf v "data"
      let suspensionData := fieldOrSelf result "result"
      if suspensionData.truthy && isTrueField suspensionData "__hostCallSuspended" then
        .suspendedChild ((suspensionData.getField "stackRunId").bind Val.asNat)
      else if result.truthy && isStrField result "status" "paused" && truthyField result "suspensionData" then
        .suspendedChild (((fieldOrSelf result "suspensionData").getField "stackRunId").bind Val.asNat)
      else
        .success result

theorem processServiceCall_snd (d : DB) (r : StackRun) (resp : ServiceResponse) (n : Nat) :
    (processServiceCall d r resp n).2 = classifyResponse r resp := by
  cases resp with
  | httpFail s =>
    unfold processServiceCall classifyResponse
    dsimp only
    (repeat' split) <;> rfl
  | parsed v =>
    unfold processServiceCall classifyResponse
    dsimp only
    (repeat' split) <;> rfl

theorem processServiceCall_proj (d : DB) (r : StackRun) (resp : ServiceResponse) (n : Nat) :
    (processServiceCall d r resp n).1.task_locks = d.task_locks ∧
    (processServiceCall d r resp n).1.task_runs = d.task_runs := by
  cases resp with
  | httpFail s =>
    unfold processServiceCall
    dsimp only
    (repeat' split) <;> exact ⟨rfl, rfl⟩
  | parsed v =>
    unfold processServiceCall
    dsimp only
    (repeat' split) <;> exact ⟨by simp, by simp⟩

theorem processServiceCall_fst_of_success (d : DB) (r : StackRun) (resp : ServiceResponse)
    (n : Nat) (v : Val) (h : classifyResponse r resp = .success v) :
    (processServiceCall d r resp n).1 = d := by
  cases resp with
  | httpFail s =>
    exfalso
    unfold classifyResponse at h
    dsimp only at h
    (repeat' (split at h)) <;> simp at h
  | parsed w =>
    unfold classifyResponse at h
    unfold processServiceCall
    dsimp only at h ⊢
    by_cases h1 : truthyField w "error" = true
    · rw [if_pos h1] at h
      exact absurd h (by simp)
    · rw [if_neg h1] at h ⊢
      by_cases h2 : ((fieldOrSelf (fieldOrSelf w "data") "result").truthy &&
          isTrueField (fieldOrSelf (fieldOrSelf w "data") "result") "__hostCallSuspended") = true
      · rw [if_pos h2] at h
        exact absurd h (by simp)
      · rw [if_neg h2] at h ⊢
        by_cases h3 : ((fieldOrSelf w "data").truthy &&
            isStrField (fieldOrSelf w "data") "status" "paused" &&
            truthyField (fieldOrSelf w "data") "suspensionData") = true
        · rw [if_pos h3] at h
          exact absurd h (by simp)
        · rw [if_neg h3]

theorem processServiceCall_fst_of_thrown (d : DB) (r : StackRun) (resp : ServiceResponse)
    (n : Nat) (m : String) (h : classifyResponse r resp = .thrown m) :
    (processServiceCall d r resp n).1 = d := by
  cases resp with
  | httpFail s =>
    unfold processServiceCall
    dsimp only
    (repeat' split) <;> rfl
  | parsed w =>
    unfold classifyResponse at h
    unfold processServiceCall
    dsimp only at h ⊢
    by_cases h1 : truthyField w "error" = true
    · rw [if_pos h1]
    · rw [if_neg h1] at h ⊢
      by_cases h2 : ((fieldOrSelf (fieldOrSelf w "data") "result").truthy &&
          isTrueField (fieldOrSelf (fieldOrSelf w "data") "result") "__hostCallSuspended") = true
      · rw [if_pos h2] at h
        exact absurd h (by simp)
      · rw [if_neg h2] at h ⊢
        by_cases h3 : ((fieldOrSelf w "data").truthy &&
            isStrField (fieldOrSelf w "data") "status" "paused" &&
            truthyField (fieldOrSelf w "data") "suspensionData") = true
        · rw [if_pos h3] at h
          exact absurd h (by simp)
        · rw [if_neg h3]

theorem processServiceCall_fst_of_susp (d : DB) (r : StackRun) (resp : ServiceResponse)
    (n : Nat) (c : Option Nat) (h : classifyResponse r resp = .suspendedChild c) :
    (processServiceCall d r resp n).1 =
      (updateStackRunStatus d r.id "suspended_waiting_child" none none n).mapStackRun r.id
        (setWaitingOn c n) := by
  cases resp with
  | httpFail s =>
    exfalso
    unfold classifyResponse at h
    dsimp only at h
    (repeat' (split at h)) <;> simp at h
  | parsed w =>
    unfold classifyResponse at h
    unfold processServiceCall
    dsimp only at h ⊢
    by_cases h1 : truthyField w "error" = true
    · rw [if_pos h1] at h
      exact absurd h (by simp)
    · rw [if_neg h1] at h ⊢
      by_cases h2 : ((fieldOrSelf (fieldOrSelf w "data") "result").truthy &&
          isTrueField (fieldOrSelf (fieldOrSelf w "data") "result") "__hostCallSuspended") = true
      · rw [if_pos h2] at h ⊢
        have hc : ((fieldOrSelf (fieldOrSelf w "data") "result").getField "stackRunId").bind Val.asNat = c := by
          injection h
        rw [hc]
      · rw [if_neg h2] at h ⊢
        by_cases h3 : ((fieldOrSelf w "data").truthy &&
            isStrField (fieldOrSelf w "data") "status" "paused" &&
            truthyField (fieldOrSelf w "data") "suspensionData") = true
        · rw [if_pos h3] at h ⊢
          have hc : (((fieldOrSelf (fieldOrSelf w "data") "suspensionData").getField "stackRunId").bind Val.asNat) = c := by
            injection h
          rw [hc]
        · rw [if_neg h3] at h
          exact absurd h (by simp)

theorem resumeParentTask_proj (d : DB) (c : StackRun) (v : Val) (ro : ResumeHttp) (n : Nat) :
    (resumeParentTask d c v ro n).db.task_locks = d.task_locks ∧
    (resumeParentTask d c v ro n).db.task_runs = d.task_runs := by
  unfold resumeParentTask
  split
  · exact ⟨rfl, rfl⟩
  · dsimp only
    cases hgp : d.getStackRun (c.parent_stack_run_id.getD 0) with
    | none =>
      exact ⟨rfl, rfl⟩
    | some parent =>
      dsimp only
      (repeat' split) <;> exact ⟨by simp, by simp⟩

@[simp] theorem unlockTaskChain_stack_runs (d : DB) (t : Option Nat) :
    (unlockTaskChain d t).stack_runs = d.stack_runs := by
  unfold unlockTaskChain
  cases t <;> rfl

@[simp] theorem unlockTaskChain_task_runs (d : DB) (t : Option Nat) :
    (unlockTaskChain d t).task_runs = d.task_runs := by
  unfold unlockTaskChain
  cases t <;> rfl

@[simp] theorem finallyMaybeUnlock_stack_runs (d : DB) (i : Nat) (t : Option Nat) (b : Bool) :
    (finallyMaybeUnlock d i t b).stack_runs = d.stack_runs := by
  unfold finallyMaybeUnlock
  (repeat' split) <;> simp

@[simp] theorem finallyMaybeUnlock_task_runs (d : DB) (i : Nat) (t : Option Nat) (b : Bool) :
    (finallyMaybeUnlock d i t b).task_runs = d.task_runs := by
  unfold finallyMaybeUnlock
  (repeat' split) <;> simp

theorem finallyMaybeUnlock_bypass (d : DB) (i : Nat) (t : Option Nat) :
    finallyMaybeUnlock d i t true = d := rfl

@[simp] theorem tryLockTaskChain_stack_runs (d : DB) (t : Option Nat) (n : Nat) :
    (tryLockTaskChain d t n).1.stack_runs = d.stack_runs := by
  unfold tryLockTaskChain
  cases t with
  | none => rfl
  | some x =>
    dsimp only
    split <;> rfl

@[simp] theorem tryLockTaskChain_task_runs (d : DB) (t : Option Nat) (n : Nat) :
    (tryLockTaskChain d t n).1.task_runs = d.task_runs := by
  unfold tryLockTaskChain
  cases t with
  | none => rfl
  | some x =>
    dsimp only
    split <;> rfl

theorem tryLockTaskChain_locks_mono (d : DB) (t : Option Nat) (n : Nat) (l : TaskLock)
    (hl : l ∈ d.task_locks) : l ∈ (tryLockTaskChain d t n).1.task_locks := by
  unfold tryLockTaskChain
  cases t with
  | none => exact hl
  | some x =>
    dsimp only
    split
    · exact hl
    · exact List.mem_append_left _ hl

theorem tryLockTaskChain_success_fresh (d : DB) (t : Nat) (n : Nat)
    (h : (tryLockTaskChain d (some t) n).2 = true) :
    ∀ l ∈ d.task_locks, l.task_run_id ≠ t := by
  intro l hl heq
  unfold tryLockTaskChain at h
  dsimp only at h
  split at h
  · exact absurd h (by simp)
  · rename_i hany
    exact hany (List.any_eq_true.mpr ⟨l, hl, by simp [heq]⟩)

theorem unlockTaskChain_mem (d : DB) (t : Nat) (l : TaskLock)
    (hl : l ∈ d.task_locks) (hne : l.task_run_id ≠ t) :
    l ∈ (unlockTaskChain d (some t)).task_locks := by
  unfold unlockTaskChain
  exact List.mem_filter.mpr ⟨hl, by simpa using hne⟩

/-- Reduction of processStackRunInternal once the early guards are known. -/
theorem processStackRunInternal_gate (db : DB) (id : Nat) (resp : ServiceResponse)
    (rh : ResumeHttp) (now : Nat) (r : StackRun)
    (hget : db.getStackRun id = some r) (hpend : r.status = "pending")
    (hbusy : isTaskChainBusy db r.parent_task_run_id = false) :
    processStackRunInternal db id resp rh now =
      (if canBypass db r then executeStackRun db id r resp rh now true true
       else if (tryLockTaskChain db r.parent_task_run_id now).2 then
         executeStackRun (tryLockTaskChain db r.parent_task_run_id now).1 id r resp rh now true false
       else ⟨db, false, false, false, false⟩) := by
  unfold processStackRunInternal
  rw [hget]
  dsimp only
  rw [hpend, hbusy]
  simp only [bne_self_eq_false, Bool.false_eq_true, if_false]
  by_cases hb : canBypass db r
  · rw [hb]
    simp
  · have hb' : canBypass db r = false := by simpa using hb
    rw [hb']
    simp only [Bool.false_eq_true, if_false]
    cases hacq : (tryLockTaskChain db r.parent_task_run_id now).2 with
    | true =>
      simp only [hacq, Bool.not_true, Bool.false_eq_true, if_false, if_true]
    | false =>
      simp only [hacq, Bool.not_false, if_true, Bool.true_eq_false, if_false]
      have : (tryLockTaskChain db r.parent_task_run_id now).1 = db := by
        unfold tryLockTaskChain
        unfold tryLockTaskChain at hacq
        cases ht : r.parent_task_run_id with
        | none => rfl
        | some x =>
          rw [ht] at hacq
          dsimp only at hacq ⊢
          split at hacq
          · rename_i hcond
            rw [if_pos hcond]
          · exact absurd hacq (by simp)
      rw [this]
      simp

/-- All execution branches report started, and echo the lock flags. -/
theorem executeStackRun_flags (d : DB) (i : Nat) (r : StackRun) (resp : ServiceResponse)
    (rh : ResumeHttp) (n : Nat) (la bl : Bool) :
    (executeStackRun d i r resp rh n la bl).started = true ∧
    (executeStackRun d i r resp rh n la bl).lockAcquired = la ∧
    (executeStackRun d i r resp rh n la bl).bypassedLock = bl := by
  unfold executeStackRun
  refine ⟨?_, ?_, ?_⟩ <;> (dsimp only; split <;> rfl)

/-- Under a bypassed lock the execution never touches the lock table. -/
theorem executeStackRun_locks_bypass (d : DB) (i : Nat) (r : StackRun)
    (resp : ServiceResponse) (rh : ResumeHttp) (n : Nat) (la : Bool) :
    (executeStackRun d i r resp rh n la true).db.task_locks = d.task_locks := by
  unfold executeStackRun
  dsimp only
  split
  · rename_i v hv
    rw [finallyMaybeUnlock_bypass]
    have h4 := (resumeParentTask_proj
      (updateStackRunStatus (processServiceCall (updateStackRunStatus d i "processing" none none n) r resp n).1
        i "completed" (some (some v)) none n) r v rh n).1
    split
    · rw [mapTaskRun_task_locks, h4]
      simp only [updateStackRunStatus_task_locks]
      exact (processServiceCall_proj _ r resp n).1
    · rw [h4]
      simp only [updateStackRunStatus_task_locks]
      exact (processServiceCall_proj _ r resp n).1
  · rw [finallyMaybeUnlock_bypass]
    simp only []
    exact (processServiceCall_proj _ r resp n).1
  · rw [finallyMaybeUnlock_bypass]
    simp only [Bool.not_true, Bool.false_eq_true, if_false, updateStackRunStatus_task_locks]
    exact (processServiceCall_proj _ r resp n).1

@[simp] theorem mapStackRun_stack_runs (d : DB) (j : Nat) (f : StackRun → StackRun) :
    (d.mapStackRun j f).stack_runs = d.stack_runs.map (fun r => if r.id == j then f r else r) := rfl

@[simp] theorem updateStackRunStatus_stack_runs (d : DB) (j : Nat) (st : String)
    (a : Option (Option Val)) (b : Option String) (n : Nat) :
    (updateStackRunStatus d j st a b n).stack_runs =
      d.stack_runs.map (fun r => if r.id == j then applyStatusUpdate st a b n r else r) := rfl

theorem getStackRun_congr (d1 d2 : DB) (k : Nat) (h : d1.stack_runs = d2.stack_runs) :
    d1.getStackRun k = d2.getStackRun k := by
  unfold DB.getStackRun
  rw [h]

theorem tryLockTaskChain_fail_fst (d : DB) (t : Option Nat) (n : Nat)
    (h : (tryLockTaskChain d t n).2 = false) : (tryLockTaskChain d t n).1 = d := by
  unfold tryLockTaskChain at h ⊢
  cases t with
  | none => rfl
  | some x =>
    dsimp only at h ⊢
    split at h
    · rename_i hc
      rw [if_pos hc]
    · exact absurd h (by simp)

/-- Is a stack run a "processing" member of chain ch? -/
def processingP (ch : Nat) (r : StackRun) : Bool :=
  r.parent_task_run_id == some ch && r.status == "processing"

/-- Number of "processing" runs of a chain. -/
def processingCount (db : DB) (ch : Nat) : Nat :=
  db.stack_runs.countP (processingP ch)

/-- The per-chain mutual-exclusion invariant of the spec. -/
def AtMostOneProcessing (db : DB) : Prop :=
  ∀ ch, processingCount db ch ≤ 1

theorem countP_map_ite_le (l : List StackRun) (j : Nat) (f : StackRun → StackRun)
    (p : StackRun → Bool) (hsafe : ∀ r, p (f r) = true → p r = true) :
    (l.map (fun r => if r.id == j then f r else r)).countP p ≤ l.countP p := by
  rw [List.countP_map]
  apply List.countP_mono_left
  intro x _ h
  by_cases hid : x.id == j
  · simp only [Function.comp, hid, if_true] at h
    exact hsafe x h
  · simpa [Function.comp, hid] using h

theorem map_ite_comp (l : List StackRun) (j : Nat) (f g : StackRun → StackRun)
    (hfid : ∀ r, (f r).id = r.id) :
    (l.map (fun r => if r.id == j then f r else r)).map (fun r => if r.id == j then g r else r)
      = l.map (fun r => if r.id == j then g (f r) else r) := by
  rw [List.map_map]
  apply List.map_congr_left
  intro r _
  by_cases h : r.id == j <;> simp [Function.comp, h, hfid]

theorem processingCount_update_le (d : DB) (j : Nat) (st : String)
    (a : Option (Option Val)) (b : Option String) (n : Nat) (ch : Nat)
    (hst : st ≠ "processing") :
    processingCount (updateStackRunStatus d j st a b n) ch ≤ processingCount d ch := by
  unfold processingCount
  rw [updateStackRunStatus_stack_runs]
  apply countP_map_ite_le
  intro r h
  exfalso
  have hs : (applyStatusUpdate st a b n r).status = st := applyStatusUpdate_status st a b n r
  unfold processingP at h
  rw [hs] at h
  have : st = "processing" := by
    have := (Bool.and_eq_true _ _).mp h
    simpa using this.2
  exact hst this

theorem processingCount_mapStackRun_safe_le (d : DB) (j : Nat) (f : StackRun → StackRun)
    (ch : Nat) (hsafe : ∀ r, processingP ch (f r) = true → processingP ch r = true) :
    processingCount (d.mapStackRun j f) ch ≤ processingCount d ch := by
  unfold processingCount
  rw [mapStackRun_stack_runs]
  exact countP_map_ite_le _ _ _ _ hsafe

theorem processingCount_resumeParentTask_le (d : DB) (c : StackRun) (v : Val)
    (ro : ResumeHttp) (n : Nat) (ch : Nat) :
    processingCount (resumeParentTask d c v ro n).db ch ≤ processingCount d ch := by
  have hpayload : ∀ (x : DB), processingCount (x.mapStackRun (c.parent_stack_run_id.getD 0)
      (setResumePayload (formatResult c v) n)) ch ≤ processingCount x ch := by
    intro x
    apply processingCount_mapStackRun_safe_le
    intro r h
    simpa [processingP, setResumePayload] using h
  by_cases hg : ResumeGuard d c
  · obtain ⟨hty, p, hp, hst, hw⟩ := hg
    have hne1 : (p.status != "suspended_waiting_child") = false := by simp [hst]
    have hne2 : (p.waiting_on_stack_run_id != some c.id) = false := by simp [hw]
    unfold resumeParentTask
    simp only [hty, Bool.not_true, Bool.false_eq_true, if_false, hp, hne1, hne2]
    cases ro with
    | httpFail status =>
      dsimp only
      calc processingCount (updateStackRunStatus _ _ "failed" _ _ n) ch
          ≤ processingCount ((updateStackRunStatus d (c.parent_stack_run_id.getD 0)
              "pending_resume" none none n).mapStackRun (c.parent_stack_run_id.getD 0)
              (setResumePayload (formatResult c v) n)) ch :=
            processingCount_update_le _ _ _ _ _ _ _ (by decide)
        _ ≤ processingCount (updateStackRunStatus d (c.parent_stack_run_id.getD 0)
              "pending_resume" none none n) ch := hpayload _
        _ ≤ processingCount d ch := processingCount_update_le _ _ _ _ _ _ _ (by decide)
    | parsed rr =>
      dsimp only
      split
      · calc processingCount (updateStackRunStatus _ _ "failed" _ _ n) ch
            ≤ processingCount ((updateStackRunStatus d (c.parent_stack_run_id.getD 0)
                "pending_resume" none none n).mapStackRun (c.parent_stack_run_id.getD 0)
                (setResumePayload (formatResult c v) n)) ch :=
              processingCount_update_le _ _ _ _ _ _ _ (by decide)
          _ ≤ processingCount (updateStackRunStatus d (c.parent_stack_run_id.getD 0)
                "pending_resume" none none n) ch := hpayload _
          _ ≤ processingCount d ch := processingCount_update_le _ _ _ _ _ _ _ (by decide)
      · split
        · calc processingCount (updateStackRunStatus _ _ "completed" _ _ n) ch
              ≤ processingCount ((updateStackRunStatus d (c.parent_stack_run_id.getD 0)
                  "pending_resume" none none n).mapStackRun (c.parent_stack_run_id.getD 0)
                  (setResumePayload (formatResult c v) n)) ch :=
                processingCount_update_le _ _ _ _ _ _ _ (by decide)
            _ ≤ processingCount (updateStackRunStatus d (c.parent_stack_run_id.getD 0)
                  "pending_resume" none none n) ch := hpayload _
            _ ≤ processingCount d ch := processingCount_update_le _ _ _ _ _ _ _ (by decide)
        · split
          · calc processingCount (updateStackRunStatus _ _ "failed" _ _ n) ch
                ≤ processingCount ((updateStackRunStatus d (c.parent_stack_run_id.getD 0)
                    "pending_resume" none none n).mapStackRun (c.parent_stack_run_id.getD 0)
                    (setResumePayload (formatResult c v) n)) ch :=
                  processingCount_update_le _ _ _ _ _ _ _ (by decide)
              _ ≤ processingCount (updateStackRunStatus d (c.parent_stack_run_id.getD 0)
                    "pending_resume" none none n) ch := hpayload _
              _ ≤ processingCount d ch := processingCount_update_le _ _ _ _ _ _ _ (by decide)
          · calc processingCount ((updateStackRunStatus d (c.parent_stack_run_id.getD 0)
                  "pending_resume" none none n).mapStackRun (c.parent_stack_run_id.getD 0)
                  (setResumePayload (formatResult c v) n)) ch
                ≤ processingCount (updateStackRunStatus d (c.parent_stack_run_id.getD 0)
                    "pending_resume" none none n) ch := hpayload _
              _ ≤ processingCount d ch := processingCount_update_le _ _ _ _ _ _ _ (by decide)
  · rw [resumeParentTask_noop d c v ro n hg]

@[simp] theorem applyStatusUpdate_result_some (st : String) (x : Option Val)
    (b : Option String) (n : Nat) (r : StackRun) :
    (applyStatusUpdate st (some x) b n r).result = x := by
  unfold applyStatusUpdate
  cases b <;> dsimp <;> split <;> rfl

theorem processingCount_congr (d1 d2 : DB) (ch : Nat) (h : d1.stack_runs = d2.stack_runs) :
    processingCount d1 ch = processingCount d2 ch := by
  unfold processingCount
  rw [h]

theorem getTaskRun_congr (d1 d2 : DB) (k : Nat) (h : d1.task_runs = d2.task_runs) :
    d1.getTaskRun k = d2.getTaskRun k := by
  unfold DB.getTaskRun
  rw [h]

theorem countP_map_le (l : List StackRun) (f : StackRun → StackRun) (p : StackRun → Bool)
    (hsafe : ∀ r, p (f r) = true → p r = true) :
    (l.map f).countP p ≤ l.countP p := by
  rw [List.countP_map]
  exact List.countP_mono_left (fun x _ h => hsafe x h)

theorem tryLockTaskChain_succ_fst (d : DB) (t : Nat) (n : Nat)
    (h : (tryLockTaskChain d (some t) n).2 = true) :
    (tryLockTaskChain d (some t) n).1 =
      { d with task_locks := d.task_locks ++ [{ task_run_id := t, locked_at := n }] } := by
  unfold tryLockTaskChain at h ⊢
  dsimp only at h ⊢
  split at h
  · exact absurd h (by simp)
  · rename_i hc
    rw [if_neg hc]

theorem finallyMaybeUnlock_mem (x : DB) (i : Nat) (tid : Option Nat) (l : TaskLock)
    (hl : l ∈ x.task_locks) (hfor : ∀ t, tid = some t → l.task_run_id ≠ t) :
    l ∈ (finallyMaybeUnlock x i tid false).task_locks := by
  unfold finallyMaybeUnlock
  simp only [Bool.false_eq_true, if_false]
  cases x.getStackRun i with
  | none => exact hl
  | some cur =>
    dsimp only
    split
    · cases tid with
      | none => exact hl
      | some t => exact unlockTaskChain_mem x t l hl (hfor t rfl)
    · exact hl

theorem finallyMaybeUnlock_of_susp (x : DB) (i : Nat) (tid : Option Nat) (bl : Bool)
    (h : statusOf x i = some "suspended_waiting_child") :
    finallyMaybeUnlock x i tid bl = x := by
  cases bl with
  | true => rfl
  | false =>
    obtain ⟨cur, hcur, hcs⟩ : ∃ cur, x.getStackRun i = some cur ∧ cur.status = "suspended_waiting_child" := by
      unfold statusOf at h
      cases hx : x.getStackRun i with
      | none => rw [hx] at h; exact absurd h (by simp)
      | some cur =>
        rw [hx] at h
        exact ⟨cur, rfl, by simpa using h⟩
    unfold finallyMaybeUnlock
    simp only [Bool.false_eq_true, if_false]
    rw [hcur]
    dsimp only
    rw [if_neg (by simp [hcs])]

/-- The candidate fetched by a primary-key select carries the key as id. -/
theorem getStackRun_id (db : DB) (i : Nat) (r : StackRun) (h : db.getStackRun i = some r) :
    r.id = i := by
  have := List.find?_some (p := fun r : StackRun => r.id == i) (by simpa [DB.getStackRun] using h)
  simpa using this

theorem executeStackRun_susp (d : DB) (i : Nat) (r : StackRun) (resp : ServiceResponse)
    (rh : ResumeHttp) (n : Nat) (la bl : Bool) (c : Option Nat)
    (hrid : r.id = i) (hd : d.getStackRun i = some r)
    (hcl : classifyResponse r resp = .suspendedChild c) :
    statusOf (executeStackRun d i r resp rh n la bl).db i = some "suspended_waiting_child" ∧
    (executeStackRun d i r resp rh n la bl).db.task_locks = d.task_locks ∧
    (executeStackRun d i r resp rh n la bl).ret = true := by
  have hsnd : (processServiceCall (updateStackRunStatus d i "processing" none none n) r resp n).2 =
      CallOutcome.suspendedChild c := (processServiceCall_snd _ _ _ _).trans hcl
  have hfst := processServiceCall_fst_of_susp
    (updateStackRunStatus d i "processing" none none n) r resp n c hcl
  have hd1 : (updateStackRunStatus d i "processing" none none n).getStackRun i =
      some (applyStatusUpdate "processing" none none n r) :=
    getStackRun_updateStackRunStatus_self d i _ none none n r hd
  have hd15 : ((updateStackRunStatus d i "processing" none none n).mapStackRun i
        (applyStatusUpdate "suspended_waiting_child" none none n)).getStackRun i =
      some (applyStatusUpdate "suspended_waiting_child" none none n
        (applyStatusUpdate "processing" none none n r)) :=
    getStackRun_mapStackRun_self (updateStackRunStatus d i "processing" none none n) i
      (applyStatusUpdate "suspended_waiting_child" none none n)
      (fun s => applyStatusUpdate_id _ none none n s)
      (applyStatusUpdate "processing" none none n r) hd1
  have hd2 : (processServiceCall (updateStackRunStatus d i "processing" none none n) r resp n).1.getStackRun i =
      some (setWaitingOn c n (applyStatusUpdate "suspended_waiting_child" none none n
        (applyStatusUpdate "processing" none none n r))) := by
    rw [hfst, hrid]
    exact getStackRun_mapStackRun_self
      ((updateStackRunStatus d i "processing" none none n).mapStackRun i
        (applyStatusUpdate "suspended_waiting_child" none none n)) i
      (setWaitingOn c n) (fun s => setWaitingOn_id c n s)
      (applyStatusUpdate "suspended_waiting_child" none none n
        (applyStatusUpdate "processing" none none n r)) hd15
  have hsusp : statusOf (processServiceCall (updateStackRunStatus d i "processing" none none n) r resp n).1 i =
      some "suspended_waiting_child" := by
    unfold statusOf
    rw [hd2]
    simp
  unfold executeStackRun
  dsimp only
  rw [hsnd]
  dsimp only
  rw [finallyMaybeUnlock_of_susp _ _ _ _ hsusp]
  refine ⟨hsusp, ?_, rfl⟩
  rw [hfst]
  simp

theorem executeStackRun_thrown_facts (d : DB) (i : Nat) (r : StackRun)
    (resp : ServiceResponse) (rh : ResumeHttp) (n : Nat) (la bl : Bool) (m : String)
    (hd : d.getStackRun i = some r)
    (hcl : classifyResponse r resp = .thrown m) :
    (executeStackRun d i r resp rh n la bl).ret = false ∧
    statusOf (executeStackRun d i r resp rh n la bl).db i = some "failed" ∧
    ((executeStackRun d i r resp rh n la bl).db.getStackRun i).map (fun s => s.error) =
      some (some m) ∧
    ((executeStackRun d i r resp rh n la bl).db.getStackRun i).map (fun s => s.result) =
      some none ∧
    (executeStackRun d i r resp rh n la bl).db.task_runs = d.task_runs := by
  have hsnd : (processServiceCall (updateStackRunStatus d i "processing" none none n) r resp n).2 =
      CallOutcome.thrown m := (processServiceCall_snd _ _ _ _).trans hcl
  have hfst := processServiceCall_fst_of_thrown
    (updateStackRunStatus d i "processing" none none n) r resp n m hcl
  unfold executeStackRun
  dsimp only
  rw [hsnd]
  dsimp only
  rw [hfst]
  have hd1 : (updateStackRunStatus d i "processing" none none n).getStackRun i =
      some (applyStatusUpdate "processing" none none n r) :=
    getStackRun_updateStackRunStatus_self d i _ none none n r hd
  have hstack3 : (if (!bl) = true then
        unlockTaskChain (updateStackRunStatus d i "processing" none none n) r.parent_task_run_id
      else updateStackRunStatus d i "processing" none none n).stack_runs =
      (updateStackRunStatus d i "processing" none none n).stack_runs := by
    split <;> simp
  have htask3 : (if (!bl) = true then
        unlockTaskChain (updateStackRunStatus d i "processing" none none n) r.parent_task_run_id
      else updateStackRunStatus d i "processing" none none n).task_runs =
      (updateStackRunStatus d i "processing" none none n).task_runs := by
    split <;> simp
  have hd3 : (if (!bl) = true then
        unlockTaskChain (updateStackRunStatus d i "processing" none none n) r.parent_task_run_id
      else updateStackRunStatus d i "processing" none none n).getStackRun i =
      some (applyStatusUpdate "processing" none none n r) :=
    (getStackRun_congr _ _ i hstack3).trans hd1
  have hd4 := getStackRun_updateStackRunStatus_self _ i "failed" (some none) (some m) n _ hd3
  have hfin : ∀ k, (finallyMaybeUnlock (updateStackRunStatus (if (!bl) = true then
        unlockTaskChain (updateStackRunStatus d i "processing" none none n) r.parent_task_run_id
      else updateStackRunStatus d i "processing" none none n) i "failed" (some none) (some m) n)
      i r.parent_task_run_id bl).getStackRun k =
      (updateStackRunStatus (if (!bl) = true then
        unlockTaskChain (updateStackRunStatus d i "processing" none none n) r.parent_task_run_id
      else updateStackRunStatus d i "processing" none none n) i "failed" (some none) (some m) n).getStackRun k := by
    intro k
    exact getStackRun_congr _ _ k (by simp)
  refine ⟨rfl, ?_, ?_, ?_, ?_⟩
  · unfold statusOf
    rw [hfin, hd4]
    simp
  · rw [hfin, hd4]
    simp
  · rw [hfin, hd4]
    simp
  · rw [finallyMaybeUnlock_task_runs]
    simp only [updateStackRunStatus_task_runs]
    rw [htask3]
    simp

theorem getTaskRun_id (db : DB) (i : Nat) (tr : TaskRun) (h : db.getTaskRun i = some tr) :
    tr.id = i := by
  have := List.find?_some (p := fun t : TaskRun => t.id == i) (by simpa [DB.getTaskRun] using h)
  simpa using this

theorem executeStackRun_success_root (d : DB) (i : Nat) (r : StackRun)
    (resp : ServiceResponse) (rh : ResumeHttp) (n : Nat) (la bl : Bool) (v : Val)
    (t : Nat) (tr : TaskRun)
    (hd : d.getStackRun i = some r)
    (hcl : classifyResponse r resp = .success v)
    (hroot : r.parent_stack_run_id = none)
    (hchain : r.parent_task_run_id = some t) (ht0 : t ≠ 0)
    (htr : d.getTaskRun t = some tr) :
    statusOf (executeStackRun d i r resp rh n la bl).db i = some "completed" ∧
    ((executeStackRun d i r resp rh n la bl).db.getStackRun i).map (fun s => s.result) =
      some (some v) ∧
    (executeStackRun d i r resp rh n la bl).db.getTaskRun t = some (completeTaskRun v n tr) := by
  have hsnd : (processServiceCall (updateStackRunStatus d i "processing" none none n) r resp n).2 =
      CallOutcome.success v := (processServiceCall_snd _ _ _ _).trans hcl
  have hfst := processServiceCall_fst_of_success
    (updateStackRunStatus d i "processing" none none n) r resp n v hcl
  have hnog : ¬ ResumeGuard (updateStackRunStatus (updateStackRunStatus d i "processing" none none n)
      i "completed" (some (some v)) none n) r := by
    intro hg
    have := hg.1
    rw [hroot] at this
    exact absurd this (by decide)
  have hd1 : (updateStackRunStatus d i "processing" none none n).getStackRun i =
      some (applyStatusUpdate "processing" none none n r) :=
    getStackRun_updateStackRunStatus_self d i _ none none n r hd
  have hd3 := getStackRun_updateStackRunStatus_self
    (updateStackRunStatus d i "processing" none none n) i "completed" (some (some v)) none n _ hd1
  have hcond : (!truthyId r.parent_stack_run_id && truthyId r.parent_task_run_id) = true := by
    rw [hroot, hchain]
    simp [truthyId, ht0]
  unfold executeStackRun
  dsimp only
  rw [hsnd]
  dsimp only
  rw [hfst, resumeParentTask_noop _ r v rh n hnog]
  dsimp only
  rw [if_pos hcond]
  have htask : (updateStackRunStatus (updateStackRunStatus d i "processing" none none n)
      i "completed" (some (some v)) none n).task_runs = d.task_runs := by simp
  refine ⟨?_, ?_, ?_⟩
  · unfold statusOf
    rw [getStackRun_congr _ _ i
      ((finallyMaybeUnlock_stack_runs _ _ _ _).trans (mapTaskRun_stack_runs _ _ _)), hd3]
    simp
  · rw [getStackRun_congr _ _ i
      ((finallyMaybeUnlock_stack_runs _ _ _ _).trans (mapTaskRun_stack_runs _ _ _)), hd3]
    simp
  · rw [getTaskRun_congr _ _ t (finallyMaybeUnlock_task_runs _ _ _ _)]
    rw [hchain]
    dsimp only [Option.getD_some]
    rw [getTaskRun_mapTaskRun _ t t _ (fun x => completeTaskRun_id v n x)]
    rw [getTaskRun_congr _ _ t htask, htr]
    have : tr.id = t := getTaskRun_id d t tr htr
    simp [this]

theorem processingCount_executeStackRun_le (d : DB) (i : Nat) (r : StackRun)
    (resp : ServiceResponse) (rh : ResumeHttp) (n : Nat) (la bl : Bool) (ch : Nat)
    (hrid : r.id = i) :
    processingCount (executeStackRun d i r resp rh n la bl).db ch ≤ processingCount d ch := by
  unfold executeStackRun
  dsimp only
  rw [show (processServiceCall (updateStackRunStatus d i "processing" none none n) r resp n).2 =
      classifyResponse r resp from processServiceCall_snd _ _ _ _]
  cases hcc : classifyResponse r resp with
  | success v =>
    dsimp only
    rw [processServiceCall_fst_of_success _ r resp n v hcc]
    rw [processingCount_congr _ _ ch (finallyMaybeUnlock_stack_runs _ _ _ _)]
    have h54 : ∀ (x : DB), processingCount (if (!truthyId r.parent_stack_run_id &&
        truthyId r.parent_task_run_id) = true then
          x.mapTaskRun (r.parent_task_run_id.getD 0) (completeTaskRun v n) else x) ch =
        processingCount x ch := by
      intro x
      split
      · exact processingCount_congr _ _ ch (mapTaskRun_stack_runs x _ _)
      · rfl
    rw [h54]
    calc processingCount (resumeParentTask (updateStackRunStatus
            (updateStackRunStatus d i "processing" none none n) i "completed" (some (some v)) none n)
            r v rh n).db ch
        ≤ processingCount (updateStackRunStatus
            (updateStackRunStatus d i "processing" none none n) i "completed" (some (some v)) none n) ch :=
          processingCount_resumeParentTask_le _ r v rh n ch
      _ ≤ processingCount d ch := by
          unfold processingCount
          rw [updateStackRunStatus_stack_runs, updateStackRunStatus_stack_runs,
            map_ite_comp _ i _ _ (fun s => applyStatusUpdate_id "processing" none none n s)]
          apply countP_map_ite_le
          intro x h
          exfalso
          unfold processingP at h
          rw [applyStatusUpdate_status] at h
          simpa using ((Bool.and_eq_true _ _).mp h).2
  | suspendedChild c =>
    dsimp only
    rw [processServiceCall_fst_of_susp _ r resp n c hcc, hrid]
    rw [processingCount_congr _ _ ch (finallyMaybeUnlock_stack_runs _ _ _ _)]
    unfold processingCount
    rw [mapStackRun_stack_runs, updateStackRunStatus_stack_runs, updateStackRunStatus_stack_runs,
      map_ite_comp _ i _ _ (fun s => applyStatusUpdate_id "processing" none none n s),
      map_ite_comp _ i _ _ (fun s => applyStatusUpdate_id "suspended_waiting_child" none none n
        (applyStatusUpdate "processing" none none n s) ▸ rfl)]
    apply countP_map_ite_le
    intro x h
    exfalso
    unfold processingP at h
    rw [setWaitingOn_status, applyStatusUpdate_status] at h
    simpa using ((Bool.and_eq_true _ _).mp h).2
  | thrown m =>
    dsimp only
    rw [processServiceCall_fst_of_thrown _ r resp n m hcc]
    rw [processingCount_congr _ _ ch (finallyMaybeUnlock_stack_runs _ _ _ _)]
    have hstack3 : (if (!bl) = true then
        unlockTaskChain (updateStackRunStatus d i "processing" none none n) r.parent_task_run_id
        else updateStackRunStatus d i "processing" none none n).stack_runs =
        (updateStackRunStatus d i "processing" none none n).stack_runs := by
      split <;> simp
    unfold processingCount
    rw [updateStackRunStatus_stack_runs, hstack3, updateStackRunStatus_stack_runs,
      map_ite_comp _ i _ _ (fun s => applyStatusUpdate_id "processing" none none n s)]
    apply countP_map_ite_le
    intro x h
    exfalso
    unfold processingP at h
    rw [applyStatusUpdate_status] at h
    simpa using ((Bool.and_eq_true _ _).mp h).2

theorem executeStackRun_locks_kept (d : DB) (i : Nat) (r : StackRun)
    (resp : ServiceResponse) (rh : ResumeHttp) (n : Nat) (la : Bool) (l : TaskLock)
    (hl : l ∈ d.task_locks)
    (hfor : ∀ t, r.parent_task_run_id = some t → l.task_run_id ≠ t) :
    l ∈ (executeStackRun d i r resp rh n la false).db.task_locks := by
  have hlocks2 : (processServiceCall (updateStackRunStatus d i "processing" none none n) r resp n).1.task_locks =
      d.task_locks := by
    rw [(processServiceCall_proj _ r resp n).1]
    simp
  unfold executeStackRun
  dsimp only
  split
  · rename_i v heq
    apply finallyMaybeUnlock_mem _ _ _ _ _ hfor
    have hlocks5 : (if (!truthyId r.parent_stack_run_id && truthyId r.parent_task_run_id) = true then
        DB.mapTaskRun (resumeParentTask (updateStackRunStatus
          (processServiceCall (updateStackRunStatus d i "processing" none none n) r resp n).1
          i "completed" (some (some v)) none n) r v rh n).db
          (r.parent_task_run_id.getD 0) (completeTaskRun v n)
        else (resumeParentTask (updateStackRunStatus
          (processServiceCall (updateStackRunStatus d i "processing" none none n) r resp n).1
          i "completed" (some (some v)) none n) r v rh n).db).task_locks = d.task_locks := by
      split
      · rw [mapTaskRun_task_locks, (resumeParentTask_proj _ r v rh n).1,
          updateStackRunStatus_task_locks, hlocks2]
      · rw [(resumeParentTask_proj _ r v rh n).1, updateStackRunStatus_task_locks, hlocks2]
    rw [hlocks5]
    exact hl
  · apply finallyMaybeUnlock_mem _ _ _ _ _ hfor
    rw [hlocks2]
    exact hl
  · rename_i m heq
    apply finallyMaybeUnlock_mem _ _ _ _ _ hfor
    rw [updateStackRunStatus_task_locks]
    rw [if_pos (show (!(false : Bool)) = true from rfl)]
    cases hpt : r.parent_task_run_id with
    | none =>
      unfold unlockTaskChain
      rw [hlocks2]
      exact hl
    | some t =>
      apply unlockTaskChain_mem _ t _ _ (hfor t hpt)
      rw [hlocks2]
      exact hl

theorem processStackRunInternal_none (db : DB) (id : Nat) (resp : ServiceResponse)
    (rh : ResumeHttp) (now : Nat) (h : db.getStackRun id = none) :
    processStackRunInternal db id resp rh now = ⟨db, false, false, false, false⟩ := by
  unfold processStackRunInternal
  rw [h]

theorem processStackRunInternal_not_pending (db : DB) (id : Nat) (resp : ServiceResponse)
    (rh : ResumeHttp) (now : Nat) (r : StackRun) (hget : db.getStackRun id = some r)
    (h : r.status ≠ "pending") :
    processStackRunInternal db id resp rh now = ⟨db, false, false, false, false⟩ := by
  unfold processStackRunInternal
  rw [hget]
  dsimp only
  rw [if_pos (by simpa using h)]

theorem processStackRunInternal_busy (db : DB) (id : Nat) (resp : ServiceResponse)
    (rh : ResumeHttp) (now : Nat) (r : StackRun) (hget : db.getStackRun id = some r)
    (hpend : r.status = "pending") (hbusy : isTaskChainBusy db r.parent_task_run_id = true) :
    processStackRunInternal db id resp rh now = ⟨db, false, false, false, false⟩ := by
  unfold processStackRunInternal
  rw [hget]
  dsimp only
  rw [hpend]
  simp only [bne_self_eq_false, Bool.false_eq_true, if_false]
  rw [hbusy]
  rw [if_pos rfl]

/-- C3: for a pending candidate of a non-busy chain, processing proceeds
without acquiring the chain TaskLock exactly under the bypass rule
(canBypass: the parent is suspended waiting on this child, or completed,
or waiting on a different child); in every other case — a top-level step
included, since canBypass is false without a parent_stack_run_id — the
TaskLock insert must succeed for execution to start, and when the insert
fails the candidate is skipped with no state change. -/
theorem c3_lock_bypass (db : DB) (id : Nat) (resp : ServiceResponse) (rh : ResumeHttp)
    (now : Nat) (r : StackRun)
    (hget : db.getStackRun id = some r) (hpend : r.status = "pending")
    (hbusy : isTaskChainBusy db r.parent_task_run_id = false) :
    ((processStackRunInternal db id resp rh now).bypassedLock = canBypass db r) ∧
    (canBypass db r = true →
      (processStackRunInternal db id resp rh now).started = true ∧
      (processStackRunInternal db id resp rh now).db.task_locks = db.task_locks) ∧
    (canBypass db r = false →
      ((processStackRunInternal db id resp rh now).started = true ↔
        (tryLockTaskChain db r.parent_task_run_id now).2 = true) ∧
      ((tryLockTaskChain db r.parent_task_run_id now).2 = false →
        processStackRunInternal db id resp rh now = ⟨db, false, false, false, false⟩)) := by
  rw [processStackRunInternal_gate db id resp rh now r hget hpend hbusy]
  by_cases hb : canBypass db r = true
  · rw [if_pos hb, hb]
    exact ⟨(executeStackRun_flags _ _ _ _ _ _ _ _).2.2,
      fun _ => ⟨(executeStackRun_flags _ _ _ _ _ _ _ _).1,
        executeStackRun_locks_bypass db id r resp rh now true⟩,
      fun hfalse => absurd hfalse (by simp)⟩
  · have hb' : canBypass db r = false := by simpa using hb
    rw [if_neg hb, hb']
    cases hacq : (tryLockTaskChain db r.parent_task_run_id now).2 with
    | true =>
      rw [if_pos rfl]
      refine ⟨(executeStackRun_flags _ _ _ _ _ _ _ _).2.2, ?_, ?_⟩
      · intro habs
        exact absurd habs (by simp)
      · intro _
        refine ⟨⟨fun _ => rfl, fun _ => (executeStackRun_flags _ _ _ _ _ _ _ _).1⟩, ?_⟩
        intro hcontra
        exact absurd hcontra (by simp)
    | false =>
      rw [if_neg (by simp)]
      refine ⟨rfl, ?_, ?_⟩
      · intro habs
        exact absurd habs (by simp)
      · intro _
        exact ⟨⟨fun h => absurd h (by simp), fun h => absurd h (by simp)⟩, fun _ => rfl⟩

/-- Witness for c3_lock_bypass: candidate 1 of chain 4 has a missing
parent record (so no bypass) and the chain lock is already held: the
candidate is skipped with no state change. -/
theorem c3_lock_bypass_witness :
    processStackRunInternal
        { stack_runs := [ { id := 1, parent_task_run_id := some 4, parent_stack_run_id := some 9,
                            status := "pending" } ],
          task_locks := [ { task_run_id := 4, locked_at := 0 } ] }
        1 (ServiceResponse.httpFail 500) (ResumeHttp.httpFail 500) 77 =
      ⟨{ stack_runs := [ { id := 1, parent_task_run_id := some 4, parent_stack_run_id := some 9,
                           status := "pending" } ],
         task_locks := [ { task_run_id := 4, locked_at := 0 } ] },
       false, false, false, false⟩ :=
  ((c3_lock_bypass
      { stack_runs := [ { id := 1, parent_task_run_id := some 4, parent_stack_run_id := some 9,
                          status := "pending" } ],
        task_locks := [ { task_run_id := 4, locked_at := 0 } ] }
      1 (ServiceResponse.httpFail 500) (ResumeHttp.httpFail 500) 77
      { id := 1, parent_task_run_id := some 4, parent_stack_run_id := some 9,
        status := "pending" }
      rfl rfl rfl).2.2 rfl).2 rfl

/-- C9: the worker never releases a chain TaskLock unless the step it
processed reached a terminal status.  Every lock row present before the
call survives it (the only rows ever deleted are the one this very call
inserted, and only after a terminal outcome); when a step processed under
an acquired (non-bypassed) lock ends suspended_waiting_child, the lock it
ran under is still in the store; and a step processed under the bypass
leaves the lock table exactly as it was. -/
theorem c9_lock_retention (db : DB) (id : Nat) (resp : ServiceResponse) (rh : ResumeHttp)
    (now : Nat) :
    (∀ l ∈ db.task_locks, l ∈ (processStackRunInternal db id resp rh now).db.task_locks) ∧
    (∀ r, db.getStackRun id = some r → r.status = "pending" →
      isTaskChainBusy db r.parent_task_run_id = false →
      canBypass db r = false →
      ∀ t, r.parent_task_run_id = some t →
      (tryLockTaskChain db (some t) now).2 = true →
      ∀ c, classifyResponse r resp = .suspendedChild c →
      statusOf (processStackRunInternal db id resp rh now).db id = some "suspended_waiting_child" ∧
      ∃ l ∈ (processStackRunInternal db id resp rh now).db.task_locks, l.task_run_id = t) ∧
    (∀ r, db.getStackRun id = some r → r.status = "pending" →
      isTaskChainBusy db r.parent_task_run_id = false →
      canBypass db r = true →
      (processStackRunInternal db id resp rh now).db.task_locks = db.task_locks) := by
  refine ⟨?_, ?_, ?_⟩
  · intro l hl
    cases hget : db.getStackRun id with
    | none =>
      rw [processStackRunInternal_none db id resp rh now hget]
      exact hl
    | some r =>
      by_cases hpend : r.status = "pending"
      · by_cases hbusy : isTaskChainBusy db r.parent_task_run_id = true
        · rw [processStackRunInternal_busy db id resp rh now r hget hpend hbusy]
          exact hl
        · have hbusy' : isTaskChainBusy db r.parent_task_run_id = false := by simpa using hbusy
          rw [processStackRunInternal_gate db id resp rh now r hget hpend hbusy']
          by_cases hb : canBypass db r = true
          · rw [if_pos hb, executeStackRun_locks_bypass]
            exact hl
          · rw [if_neg hb]
            cases hacq : (tryLockTaskChain db r.parent_task_run_id now).2 with
            | false =>
              rw [if_neg (by simp)]
              exact hl
            | true =>
              rw [if_pos rfl]
              cases hpt : r.parent_task_run_id with
              | none =>
                exfalso
                rw [hpt] at hacq
                exact absurd hacq (by simp [tryLockTaskChain])
              | some t =>
                have hfresh := tryLockTaskChain_success_fresh db t now (by rw [← hpt]; exact hacq)
                apply executeStackRun_locks_kept _ id r resp rh now true l
                · exact tryLockTaskChain_locks_mono db (some t) now l hl
                · intro t' ht'
                  rw [hpt] at ht'
                  have : t' = t := by injection ht' with h; exact h.symm
                  rw [this]
                  exact hfresh l hl
      · rw [processStackRunInternal_not_pending db id resp rh now r hget hpend]
        exact hl
  · intro r hget hpend hbusy hb t hpt hacq c hcl
    rw [processStackRunInternal_gate db id resp rh now r hget hpend hbusy]
    rw [if_neg (by simp [hb]), hpt, if_pos hacq]
    have hstackA : (tryLockTaskChain db (some t) now).1.stack_runs = db.stack_runs :=
      tryLockTaskChain_stack_runs db (some t) now
    have hdA : (tryLockTaskChain db (some t) now).1.getStackRun id = some r :=
      (getStackRun_congr _ db id hstackA).trans hget
    have hrid : r.id = id := getStackRun_id db id r hget
    obtain ⟨hsusp, hlocks, _⟩ := executeStackRun_susp _ id r resp rh now true false c hrid hdA hcl
    refine ⟨hsusp, ⟨{ task_run_id := t, locked_at := now }, ?_, rfl⟩⟩
    rw [hlocks, tryLockTaskChain_succ_fst db t now hacq]
    exact List.mem_append_right _ (by simp)
  · intro r hget hpend hbusy hb
    rw [processStackRunInternal_gate db id resp rh now r hget hpend hbusy]
    rw [if_pos hb]
    exact executeStackRun_locks_bypass db id r resp rh now true

/-- C7: the scheduler skips a candidate, leaving the store untouched, when
its chain already has a step in "processing"; and none of the modeled
writers — the scheduler itself, the sweeper, and the sandbox child
creation — ever increases the number of "processing" steps of any chain,
so the at-most-one-processing-per-chain invariant is preserved in every
reachable state. -/
theorem c7_at_most_one_processing (db : DB) (id : Nat) (resp : ServiceResponse)
    (rh : ResumeHttp) (now : Nat) :
    (∀ r, db.getStackRun id = some r → r.status = "pending" →
      isTaskChainBusy db r.parent_task_run_id = true →
      processStackRunInternal db id resp rh now = ⟨db, false, false, false, false⟩) ∧
    (∀ ch, processingCount (processStackRunInternal db id resp rh now).db ch ≤
      processingCount db ch) ∧
    (AtMostOneProcessing db → AtMostOneProcessing (processStackRunInternal db id resp rh now).db) ∧
    (∀ ch, processingCount (cleanupStaleLocks now db) ch ≤ processingCount db ch) ∧
    (∀ (childId : Nat) (svc : String) (mp : List String) (args : List Val) (trid srid ch : Nat),
      processingCount (makeExternalCall db childId svc mp args trid srid now).1 ch ≤
        processingCount db ch) := by
  have hcount : ∀ ch, processingCount (processStackRunInternal db id resp rh now).db ch ≤
      processingCount db ch := by
    intro ch
    cases hget : db.getStackRun id with
    | none =>
      rw [processStackRunInternal_none db id resp rh now hget]
    | some r =>
      by_cases hpend : r.status = "pending"
      · by_cases hbusy : isTaskChainBusy db r.parent_task_run_id = true
        · rw [processStackRunInternal_busy db id resp rh now r hget hpend hbusy]
        · have hbusy' : isTaskChainBusy db r.parent_task_run_id = false := by simpa using hbusy
          have hrid : r.id = id := getStackRun_id db id r hget
          rw [processStackRunInternal_gate db id resp rh now r hget hpend hbusy']
          by_cases hb : canBypass db r = true
          · rw [if_pos hb]
            exact processingCount_executeStackRun_le db id r resp rh now true true ch hrid
          · rw [if_neg hb]
            cases hacq : (tryLockTaskChain db r.parent_task_run_id now).2 with
            | false =>
              rw [if_neg (by simp)]
            | true =>
              rw [if_pos rfl]
              calc processingCount (executeStackRun (tryLockTaskChain db r.parent_task_run_id now).1
                    id r resp rh now true false).db ch
                  ≤ processingCount (tryLockTaskChain db r.parent_task_run_id now).1 ch :=
                    processingCount_executeStackRun_le _ id r resp rh now true false ch hrid
                _ = processingCount db ch :=
                    processingCount_congr _ db ch (tryLockTaskChain_stack_runs db _ now)
      · rw [processStackRunInternal_not_pending db id resp rh now r hget hpend]
  refine ⟨fun r hget hpend hbusy => processStackRunInternal_busy db id resp rh now r hget hpend hbusy,
    hcount, fun hin ch => Nat.le_trans (hcount ch) (hin ch), ?_, ?_⟩
  · intro ch
    unfold processingCount cleanupStaleLocks
    dsimp only
    apply countP_map_le
    intro x h
    by_cases hc : (x.status == "processing" && decide (x.updated_at < now - 2 * 60 * 1000)) = true
    · rw [if_pos hc] at h
      exfalso
      unfold processingP at h
      simpa using ((Bool.and_eq_true _ _).mp h).2
    · rw [if_neg hc] at h
      exact h
  · intro childId svc mp args trid srid ch
    unfold makeExternalCall
    dsimp only
    unfold processingCount
    rw [mapStackRun_stack_runs]
    refine Nat.le_trans (countP_map_ite_le _ _ _ _ ?_) ?_
    · intro x h
      exfalso
      unfold processingP markSuspendedWaiting at h
      simpa using ((Bool.and_eq_true _ _).mp h).2
    · rw [List.countP_append]
      simp [processingP]

/-! C5 — root completion, C6 — failure handling. -/

/-- C5 counterexample store: root step 1 of chain 9 suspended awaiting
child 2; the task run 9 is "processing". -/
def c5DB : DB :=
  { stack_runs :=
      [ { id := 1, parent_task_run_id := some 9, status := "suspended_waiting_child",
          waiting_on_stack_run_id := some 2, created_at := 1 },
        { id := 2, parent_task_run_id := some 9, parent_stack_run_id := some 1,
          status := "pending", created_at := 2 } ],
    task_runs := [ { id := 9, status := "processing" } ] }

/-- C5, counterexample: child 2 completes (service value 41) and the
resume of root step 1 completes it with result 42 — a step with no
parent_stack_run_id reached "completed" after being resumed — yet the
enclosing task run 9 is left in "processing": the resume path never
updates task_runs. -/
theorem c5_counterexample :
    statusOf (processStackRunInternal c5DB 2 (ServiceResponse.parsed (.obj [("data", .num 41)]))
      (ResumeHttp.parsed (.obj [("data", .obj [("status", .str "completed"), ("result", .num 42)])])) 100).db 1 =
        some "completed" ∧
    ((processStackRunInternal c5DB 2 (ServiceResponse.parsed (.obj [("data", .num 41)]))
      (ResumeHttp.parsed (.obj [("data", .obj [("status", .str "completed"), ("result", .num 42)])])) 100).db.getStackRun 1).map
        (fun s => s.parent_stack_run_id) = some none ∧
    taskStatusOf (processStackRunInternal c5DB 2 (ServiceResponse.parsed (.obj [("data", .num 41)]))
      (ResumeHttp.parsed (.obj [("data", .obj [("status", .str "completed"), ("result", .num 42)])])) 100).db 9 =
        some "processing" := by
  exact ⟨rfl, rfl, rfl⟩

/-- C5, amended: when the root step of a chain (no parent_stack_run_id)
completes during direct processing, the enclosing task run transitions to
"completed" with the step result copied; but completion of a root step via
the resume path does not touch task_runs — resumeParentTask never writes
that table. -/
theorem c5_root_completion (db : DB) (id : Nat) (resp : ServiceResponse) (rh : ResumeHttp)
    (now : Nat) (r : StackRun) (v : Val) (t : Nat) (tr : TaskRun)
    (hget : db.getStackRun id = some r) (hpend : r.status = "pending")
    (hbusy : isTaskChainBusy db r.parent_task_run_id = false)
    (hroot : r.parent_stack_run_id = none)
    (hchain : r.parent_task_run_id = some t) (ht0 : t ≠ 0)
    (hcl : classifyResponse r resp = .success v)
    (hacq : (tryLockTaskChain db (some t) now).2 = true)
    (htr : db.getTaskRun t = some tr) :
    taskStatusOf (processStackRunInternal db id resp rh now).db t = some "completed" ∧
    ((processStackRunInternal db id resp rh now).db.getTaskRun t).map (fun x => x.result) =
      some (some v) ∧
    statusOf (processStackRunInternal db id resp rh now).db id = some "completed" ∧
    (∀ (d2 : DB) (c2 : StackRun) (v2 : Val) (ro2 : ResumeHttp) (n2 : Nat),
      (resumeParentTask d2 c2 v2 ro2 n2).db.task_runs = d2.task_runs) := by
  have hb : canBypass db r = false := by
    unfold canBypass
    rw [hroot]
    rfl
  rw [processStackRunInternal_gate db id resp rh now r hget hpend hbusy]
  rw [if_neg (by simp [hb]), hchain, if_pos hacq]
  have hdA : (tryLockTaskChain db (some t) now).1.getStackRun id = some r :=
    (getStackRun_congr _ db id (tryLockTaskChain_stack_runs db (some t) now)).trans hget
  have htrA : (tryLockTaskChain db (some t) now).1.getTaskRun t = some tr :=
    (getTaskRun_congr _ db t (tryLockTaskChain_task_runs db (some t) now)).trans htr
  obtain ⟨hst, hres, htask⟩ := executeStackRun_success_root _ id r resp rh now true false v t tr
    hdA hcl hroot hchain ht0 htrA
  refine ⟨?_, ?_, hst, fun d2 c2 v2 ro2 n2 => (resumeParentTask_proj d2 c2 v2 ro2 n2).2⟩
  · unfold taskStatusOf
    rw [htask]
    rfl
  · rw [htask]
    rfl

/-- Witness for c5_root_completion: a single pending root step of chain 9
completes directly with value 41; task run 9 becomes "completed" with the
result copied. -/
theorem c5_root_completion_witness :
    taskStatusOf (processStackRunInternal
        { stack_runs := [ { id := 1, parent_task_run_id := some 9, status := "pending" } ],
          task_runs := [ { id := 9, status := "processing" } ] }
        1 (ServiceResponse.parsed (.obj [("data", .num 41)])) (ResumeHttp.httpFail 500) 100).db 9 =
      some "completed" ∧
    ((processStackRunInternal
        { stack_runs := [ { id := 1, parent_task_run_id := some 9, status := "pending" } ],
          task_runs := [ { id := 9, status := "processing" } ] }
        1 (ServiceResponse.parsed (.obj [("data", .num 41)])) (ResumeHttp.httpFail 500) 100).db.getTaskRun 9).map
      (fun x => x.result) = some (some (.num 41)) ∧
    statusOf (processStackRunInternal
        { stack_runs := [ { id := 1, parent_task_run_id := some 9, status := "pending" } ],
          task_runs := [ { id := 9, status := "processing" } ] }
        1 (ServiceResponse.parsed (.obj [("data", .num 41)])) (ResumeHttp.httpFail 500) 100).db 1 =
      some "completed" ∧
    (∀ (d2 : DB) (c2 : StackRun) (v2 : Val) (ro2 : ResumeHttp) (n2 : Nat),
      (resumeParentTask d2 c2 v2 ro2 n2).db.task_runs = d2.task_runs) :=
  c5_root_completion
    { stack_runs := [ { id := 1, parent_task_run_id := some 9, status := "pending" } ],
      task_runs := [ { id := 9, status := "processing" } ] }
    1 (ServiceResponse.parsed (.obj [("data", .num 41)])) (ResumeHttp.httpFail 500) 100
    { id := 1, parent_task_run_id := some 9, status := "pending" }
    (.num 41) 9 { id := 9, status := "processing" }
    rfl rfl rfl rfl rfl (by decide) rfl rfl rfl

/-- C6 counterexample store: a single pending root step of chain 9. -/
def c6DB : DB :=
  { stack_runs := [ { id := 1, parent_task_run_id := some 9, status := "pending",
                      service_name := "websearch" } ],
    task_runs := [ { id := 9, status := "processing" } ] }

/-- C6, counterexample: the root step fails with a transport error; the
step is failed with the error recorded, but the enclosing task run 9 is
left in "processing" — the failure path never marks the task run as
failed, contradicting the claim. -/
theorem c6_counterexample :
    statusOf (processStackRunInternal c6DB 1 (ServiceResponse.httpFail 500)
      (ResumeHttp.httpFail 500) 100).db 1 = some "failed" ∧
    ((processStackRunInternal c6DB 1 (ServiceResponse.httpFail 500)
      (ResumeHttp.httpFail 500) 100).db.getStackRun 1).map (fun s => s.error) =
      some (some "websearch call failed: 500") ∧
    ((processStackRunInternal c6DB 1 (ServiceResponse.httpFail 500)
      (ResumeHttp.httpFail 500) 100).db.getStackRun 1).map (fun s => s.parent_stack_run_id) =
      some none ∧
    taskStatusOf (processStackRunInternal c6DB 1 (ServiceResponse.httpFail 500)
      (ResumeHttp.httpFail 500) 100).db 9 = some "processing" := by
  exact ⟨rfl, rfl, rfl, rfl⟩

/-- C6, amended: a non-suspension error fails the step: the scheduler
records the error on the step, clears its result, returns false without
any retry, and leaves the task_runs table untouched (the enclosing task
run is not marked failed by this layer). -/
theorem c6_failure_no_retry (db : DB) (id : Nat) (resp : ServiceResponse) (rh : ResumeHttp)
    (now : Nat) (r : StackRun) (m : String)
    (hget : db.getStackRun id = some r) (hpend : r.status = "pending")
    (hbusy : isTaskChainBusy db r.parent_task_run_id = false)
    (hcl : classifyResponse r resp = .thrown m)
    (hlock : canBypass db r = true ∨ (tryLockTaskChain db r.parent_task_run_id now).2 = true) :
    (processStackRunInternal db id resp rh now).ret = false ∧
    statusOf (processStackRunInternal db id resp rh now).db id = some "failed" ∧
    ((processStackRunInternal db id resp rh now).db.getStackRun id).map (fun s => s.error) =
      some (some m) ∧
    ((processStackRunInternal db id resp rh now).db.getStackRun id).map (fun s => s.result) =
      some none ∧
    (processStackRunInternal db id resp rh now).db.task_runs = db.task_runs := by
  rw [processStackRunInternal_gate db id resp rh now r hget hpend hbusy]
  by_cases hb : canBypass db r = true
  · rw [if_pos hb]
    exact executeStackRun_thrown_facts db id r resp rh now true true m hget hcl
  · have hacq : (tryLockTaskChain db r.parent_task_run_id now).2 = true := by
      rcases hlock with h | h
      · exact absurd h hb
      · exact h
    rw [if_neg hb, hacq, if_pos rfl]
    have hdA : (tryLockTaskChain db r.parent_task_run_id now).1.getStackRun id = some r :=
      (getStackRun_congr _ db id (tryLockTaskChain_stack_runs db _ now)).trans hget
    obtain ⟨h1, h2, h3, h4, h5⟩ := executeStackRun_thrown_facts
      (tryLockTaskChain db r.parent_task_run_id now).1 id r resp rh now true false m hdA hcl
    exact ⟨h1, h2, h3, h4, h5.trans (tryLockTaskChain_task_runs db _ now)⟩

/-- Witness for c6_failure_no_retry: pending step 3 of chain 8 fails with
an HTTP 500 from its wrapped service; it ends failed with the error
recorded and the task_runs table untouched. -/
theorem c6_failure_no_retry_witness :
    (processStackRunInternal
        { stack_runs := [ { id := 3, parent_task_run_id := some 8, status := "pending",
                            service_name := "wrappedkeystore" } ],
          task_runs := [ { id := 8, status := "processing" } ] }
        3 (ServiceResponse.httpFail 500) (ResumeHttp.httpFail 500) 55).ret = false ∧
    statusOf (processStackRunInternal
        { stack_runs := [ { id := 3, parent_task_run_id := some 8, status := "pending",
                            service_name := "wrappedkeystore" } ],
          task_runs := [ { id := 8, status := "processing" } ] }
        3 (ServiceResponse.httpFail 500) (ResumeHttp.httpFail 500) 55).db 3 = some "failed" ∧
    ((processStackRunInternal
        { stack_runs := [ { id := 3, parent_task_run_id := some 8, status := "pending",
                            service_name := "wrappedkeystore" } ],
          task_runs := [ { id := 8, status := "processing" } ] }
        3 (ServiceResponse.httpFail 500) (ResumeHttp.httpFail 500) 55).db.getStackRun 3).map
      (fun s => s.error) = some (some "wrappedkeystore call failed: 500") ∧
    ((processStackRunInternal
        { stack_runs := [ { id := 3, parent_task_run_id := some 8, status := "pending",
                            service_name := "wrappedkeystore" } ],
          task_runs := [ { id := 8, status := "processing" } ] }
        3 (ServiceResponse.httpFail 500) (ResumeHttp.httpFail 500) 55).db.getStackRun 3).map
      (fun s => s.result) = some none ∧
    (processStackRunInternal
        { stack_runs := [ { id := 3, parent_task_run_id := some 8, status := "pending",
                            service_name := "wrappedkeystore" } ],
          task_runs := [ { id := 8, status := "processing" } ] }
        3 (ServiceResponse.httpFail 500) (ResumeHttp.httpFail 500) 55).db.task_runs =
      [ { id := 8, status := "processing" } ] :=
  c6_failure_no_retry
    { stack_runs := [ { id := 3, parent_task_run_id := some 8, status := "pending",
                        service_name := "wrappedkeystore" } ],
      task_runs := [ { id := 8, status := "processing" } ] }
    3 (ServiceResponse.httpFail 500) (ResumeHttp.httpFail 500) 55
    { id := 3, parent_task_run_id := some 8, status := "pending",
      service_name := "wrappedkeystore" }
    "wrappedkeystore call failed: 500"
    rfl rfl rfl rfl (Or.inr rfl)

end Tasker
